import Mathlib

/-!
A shallow embedding, in Lean, of the conversation patient-context engine of
the skincare-agent-orchestrator repository, together with proofs about it.

The embedded code:
  * `src/src/data_models/chat_context.py` — `PatientContext`, `ChatContext`;
  * `src/src/services/patient_context_service.py` — `PatientContextService`
    (`decide_and_apply`, `_activate_patient`, `_clear`,
    `_remove_system_message`, `_ensure_system_message`, `_estimate_tokens`);
  * `src/src/services/patient_context_analyzer.py` — `PatientContextAnalyzer.analyze`;
  * `src/src/bots/assistant_bot.py` — `_get_system_patient_context_json`,
    `_append_pc_ctx`.

Modelling conventions:
  * The external LLM calls (classifier and summarizer) are nondeterministic
    I/O; each embedded function takes the outcome of the call as an argument
    (`LlmOutcome`, `Except Unit String`).
  * Wall-clock readings (`time.time()`) are taken as arguments; the float
    timing values that end up in the record are modelled as the finite
    decimals their `repr` prints (`PyDecimal`).
  * Python `dict` (insertion-ordered, string keys, in this code never
    overwritten) is an association list; Python `str` is `String`
    (a sequence of unicode scalar values), and the Python string operations
    used by the code (`startswith`, `strip`, slicing, `in`, `join`, `upper`)
    are defined below over character lists.
  * `json.dumps(..., separators=(",", ":"))` of the concrete record payload
    and `json.loads` are embedded: the encoder as the exact character
    sequence CPython produces for the record dict (`payloadLine`), the
    decoder as a recursive-descent parser (`jsonLoads`) over a `Json` tree.
    JSON numbers are modelled as the finite decimals the code's values
    print as; exponent-notation floats are outside the embedded fragment.
-/

namespace SkincareOrchestrator

/-! ## Python string primitives -/

/-- Python `s.startswith(p)` at the character-list level: `p` is an initial
segment of `l`. -/
def matchesAt : List Char → List Char → Bool
  | _, [] => true
  | [], _ :: _ => false
  | c :: cs, p :: ps => c == p && matchesAt cs ps

/-- Python `pat in s` (substring containment) at the character-list level. -/
def hasSub : List Char → List Char → Bool
  | [], pat => pat.isEmpty
  | l@(_ :: t), pat => matchesAt l pat || hasSub t pat

/-- Python `s.startswith(p)`. -/
def pyStartsWith (s p : String) : Bool := matchesAt s.data p.data

/-- Python `pat in s`. -/
def strContains (s pat : String) : Bool := hasSub s.data pat.data

/-- The characters Python's default `str.strip()` removes (the ASCII
whitespace set; the code never feeds it other unicode spaces). -/
def isPySpace (c : Char) : Bool :=
  c == ' ' || c == '\t' || c == '\n' || c == '\r' || c == Char.ofNat 11 || c == Char.ofNat 12

/-- Strip characters satisfying `p` from both ends of a list. -/
def stripBoth (p : Char → Bool) (l : List Char) : List Char :=
  ((l.dropWhile p).reverse.dropWhile p).reverse

/-- Python `s.strip()` (no argument: whitespace). -/
def pyStrip (s : String) : String := ⟨stripBoth isPySpace s.data⟩

/-- Python slicing `s[n:]` (by characters). -/
def pyDrop (s : String) (n : Nat) : String := ⟨s.data.drop n⟩

/-- Python slicing `s[:n]` (by characters). -/
def pyTake (s : String) (n : Nat) : String := ⟨s.data.take n⟩

/-- Python `sep.join(parts)`. -/
def pyJoin (sep : String) : List String → String
  | [] => ""
  | [x] => x
  | x :: xs => x ++ sep ++ pyJoin sep xs

/-- Python `s.upper()` (the code only ever uppercases ASCII action tags). -/
def pyUpper (s : String) : String := ⟨s.data.map Char.toUpper⟩

/-! ## Data model (`src/src/data_models/chat_context.py` and the
semantic-kernel message type used by the service) -/

/-- `semantic_kernel.contents.AuthorRole` (the roles this engine uses). -/
inductive AuthorRole where
  | system
  | user
  | assistant
deriving DecidableEq, Repr

/-- A transcript message's content: a plain string, or the structured
(itemized) content shape the consumer tolerates (design note §9 of the
spec: a tagged variant with a single extraction function). -/
inductive MsgContent where
  | text (s : String)
  | parts (items : List String)
deriving DecidableEq, Repr

/-- `semantic_kernel.contents.chat_message_content.ChatMessageContent`,
restricted to the fields this engine reads: `role` and `content`. -/
structure ChatMessageContent where
  role : AuthorRole
  content : MsgContent
deriving DecidableEq, Repr

/-- `PatientContext` of `chat_context.py`: a subject id plus an (empty at
creation) fact bag. -/
structure PatientContext where
  patient_id : String
  facts : List (String × String) := []
deriving DecidableEq, Repr

/-- `ChatContext` of `chat_context.py`, restricted to the fields the
context engine reads and writes: conversation id, transcript
(`chat_history.messages`), active patient pointer, and the
insertion-ordered registry `patient_contexts` (modelled as an association
list: lookup by key, new keys appended at the end, exactly as CPython's
insertion-ordered `dict` behaves for this code, which never deletes or
overwrites a key). -/
structure ChatContext where
  conversation_id : String
  messages : List ChatMessageContent
  patient_id : Option String
  patient_contexts : List (String × PatientContext)
deriving DecidableEq, Repr

/-- The ordered key list of the registry
(`list(chat_ctx.patient_contexts.keys())`). -/
def ChatContext.knownIds (ctx : ChatContext) : List String :=
  ctx.patient_contexts.map Prod.fst

/-- `AnalyzerAction` of `patient_context_analyzer.py`. -/
inductive AnalyzerAction where
  | NONE
  | CLEAR
  | ACTIVATE_NEW
  | SWITCH_EXISTING
  | UNCHANGED
deriving DecidableEq, Repr

/-- `Decision` of `patient_context_service.py`. -/
inductive Decision where
  | NONE
  | UNCHANGED
  | NEW_BLANK
  | SWITCH_EXISTING
  | CLEAR
deriving DecidableEq, Repr

/-- `PATIENT_CONTEXT_PREFIX` of `patient_context_service.py`. -/
def PATIENT_CONTEXT_PREFIX : String := "PATIENT_CONTEXT_JSON:"

/-- The predicate the service filters with everywhere: a system-role message
whose content is a string starting with the marker (the synthetic record). -/
def isPatientContextMsg (m : ChatMessageContent) : Bool :=
  m.role == .system &&
    (match m.content with
     | .text s => pyStartsWith s PATIENT_CONTEXT_PREFIX
     | .parts _ => false)

/-- A finite decimal `mant * 10 ^ (-frac)`, printed with exactly `frac`
digits after the point. The Python floats the service writes into the
record (wall-clock timings rounded to 4 decimals) print as such decimals;
this is their embedding. -/
structure PyDecimal where
  mant : Int
  frac : Nat
deriving DecidableEq, Repr

/-- `TimingInfo` of `patient_context_service.py`. -/
structure TimingInfo where
  analyzer : PyDecimal
  service : PyDecimal
deriving DecidableEq, Repr

/-- The `token_counts` dict `decide_and_apply` builds. -/
structure TokenCounts where
  history_estimate : Nat
  summary_estimate : Nat
deriving DecidableEq, Repr

/-! ## The record encoder: the characters
`json.dumps(payload, separators=(",", ":"))` produces (CPython's
`json.encoder`, default `ensure_ascii=True`). -/

/-- The decimal digits of `n`, most significant first, with enough fuel
(`fuel ≥ n` suffices); `natDigitsAux fuel 0 = []`. -/
def natDigitsAux : Nat → Nat → List Char
  | 0, _ => []
  | _ + 1, 0 => []
  | fuel + 1, n + 1 => natDigitsAux fuel ((n + 1) / 10) ++ [Char.ofNat (48 + (n + 1) % 10)]

/-- Python's decimal digits of a natural number (`repr(n)`). -/
def natDigits (n : Nat) : List Char :=
  if n = 0 then ['0'] else natDigitsAux n n

/-- Python's `repr` of an integer. -/
def intDigits (m : Int) : List Char :=
  if m < 0 then '-' :: natDigits m.natAbs else natDigits m.natAbs

/-- The digits of `m`, zero-padded on the left to at least `e + 1` digits
(so a decimal point inserted `e` from the right keeps an integer part). -/
def natDigitsPadded (m e : Nat) : List Char :=
  List.replicate (e + 1 - (natDigits m).length) '0' ++ natDigits m

/-- How `json.dumps` prints the finite decimal `d`: the mantissa's digits
with a point inserted `frac` digits from the right (zero-padded on the left
so an integer part is always present), e.g. `⟨-5, 2⟩ ↦ "-0.05"`. -/
def dumpsNum (d : PyDecimal) : List Char :=
  if d.frac = 0 then intDigits d.mant
  else
    let padded := natDigitsPadded d.mant.natAbs d.frac
    let sign : List Char := if d.mant < 0 then ['-'] else []
    sign ++ padded.take (padded.length - d.frac) ++ '.' :: padded.drop (padded.length - d.frac)

/-- Lowercase hexadecimal digit, as CPython's `\uXXXX` escapes print. -/
def hexDigitChar (n : Nat) : Char :=
  if n < 10 then Char.ofNat (48 + n) else Char.ofNat (87 + n)

/-- Four lowercase hex digits of `v < 0x10000`. -/
def hex4 (v : Nat) : List Char :=
  [hexDigitChar (v / 4096 % 16), hexDigitChar (v / 256 % 16),
   hexDigitChar (v / 16 % 16), hexDigitChar (v % 16)]

/-- CPython's `ensure_ascii` JSON string escaping of one character:
`"` and `\` escaped, the named control escapes, printable ASCII verbatim,
every other character as `\uXXXX` (a surrogate pair beyond `0xFFFF`). -/
def escapeChar (c : Char) : List Char :=
  if c = '"' then ['\\', '"']
  else if c = '\\' then ['\\', '\\']
  else if c = '\n' then ['\\', 'n']
  else if c = '\t' then ['\\', 't']
  else if c = '\r' then ['\\', 'r']
  else if c = Char.ofNat 8 then ['\\', 'b']
  else if c = Char.ofNat 12 then ['\\', 'f']
  else if 32 ≤ c.toNat ∧ c.toNat ≤ 126 then [c]
  else if c.toNat < 65536 then '\\' :: 'u' :: hex4 c.toNat
  else
    '\\' :: 'u' :: hex4 (55296 + (c.toNat - 65536) / 1024) ++
      '\\' :: 'u' :: hex4 (56320 + (c.toNat - 65536) % 1024)

/-- JSON escaping of a whole character list. -/
def escapeList (l : List Char) : List Char := (l.map escapeChar).flatten

/-- `json.dumps` of a Python string. -/
def dumpsStr (s : String) : List Char := '"' :: (escapeList s.data ++ ['"'])

/-- Join character lists with a separator (the compact `","`/`":"`). -/
def joinSep (sep : List Char) : List (List Char) → List Char
  | [] => []
  | [x] => x
  | x :: xs => x ++ sep ++ joinSep sep xs

/-- `json.dumps` of a list of strings, compact separators. -/
def dumpsStrArr (xs : List String) : List Char :=
  '[' :: (joinSep [','] (xs.map dumpsStr) ++ [']'])

/-- `json.dumps` of `None`. -/
def dumpsNull : List Char := ['n', 'u', 'l', 'l']

/-- `json.dumps` of an optional string (`chat_summary`). -/
def dumpsOptStr : Option String → List Char
  | none => dumpsNull
  | some s => dumpsStr s

/-- `json.dumps` of the `timing_sec` dict. -/
def dumpsTiming (t : TimingInfo) : List Char :=
  '{' :: (dumpsStr "analyzer" ++ ':' :: dumpsNum t.analyzer ++
    ',' :: dumpsStr "service" ++ ':' :: dumpsNum t.service ++ ['}'])

/-- `json.dumps` of `token_counts or {}`. -/
def dumpsTokenCounts : Option TokenCounts → List Char
  | none => ['{', '}']
  | some tc =>
    '{' :: (dumpsStr "history_estimate" ++ ':' :: natDigits tc.history_estimate ++
      ',' :: dumpsStr "summary_estimate" ++ ':' :: natDigits tc.summary_estimate ++ ['}'])

/-- `json.dumps(payload, separators=(",", ":"))` for the record payload of
`_ensure_system_message` (keys in the dict's insertion order). -/
def payloadLine (conversation_id patient_id : String) (all_patient_ids : List String)
    (timing : TimingInfo) (chat_summary : Option String)
    (token_counts : Option TokenCounts) : List Char :=
  '{' :: (dumpsStr "conversation_id" ++ ':' :: dumpsStr conversation_id ++
    ',' :: dumpsStr "patient_id" ++ ':' :: dumpsStr patient_id ++
    ',' :: dumpsStr "all_patient_ids" ++ ':' :: dumpsStrArr all_patient_ids ++
    ',' :: dumpsStr "timing_sec" ++ ':' :: dumpsTiming timing ++
    ',' :: dumpsStr "chat_summary" ++ ':' :: dumpsOptStr chat_summary ++
    ',' :: dumpsStr "token_counts" ++ ':' :: dumpsTokenCounts token_counts ++ ['}'])

/-! ## `json.loads` (the decoder used by the analyzer's validation and the
renderer), as a recursive-descent parser over a JSON value tree. -/

/-- A parsed JSON value. Numbers are the finite decimals of `PyDecimal`
(integers have `frac = 0`); objects keep their members in source order
(CPython's dict keeps the *last* value of a repeated key — see `objGet`). -/
inductive Json where
  | null
  | bool (b : Bool)
  | num (mant : Int) (frac : Nat)
  | str (s : String)
  | arr (elems : List Json)
  | obj (members : List (String × Json))

/-- `dict.get k`: the last member with key `k` wins, as in the dict
`json.loads` builds. -/
def objGet (kvs : List (String × Json)) (k : String) : Option Json :=
  match kvs with
  | [] => none
  | (k', v) :: rest =>
    match objGet rest k with
    | some r => some r
    | none => if k' = k then some v else none

/-- The JSON whitespace set (RFC 8259, as CPython skips it). -/
def isJsonWs (c : Char) : Bool :=
  c == ' ' || c == '\t' || c == '\n' || c == '\r'

/-- Skip JSON whitespace. -/
def skipWs (l : List Char) : List Char := l.dropWhile isJsonWs

/-- An ASCII decimal digit. -/
def isDigitChar (c : Char) : Bool := 48 ≤ c.toNat && c.toNat ≤ 57

/-- The number a digit run denotes. -/
def digitsToNat (ds : List Char) : Nat :=
  ds.foldl (fun a c => a * 10 + (c.toNat - 48)) 0

/-- Read a run of digits: `(value, how many digits, rest)`. -/
def parseNatPart (l : List Char) : Option (Nat × Nat × List Char) :=
  let ds := l.takeWhile isDigitChar
  if ds.isEmpty then none
  else some (digitsToNat ds, ds.length, l.dropWhile isDigitChar)

/-- Read an unsigned JSON number as a scaled decimal `(mantissa, frac
digits, rest)`.  Exponent notation (which the repository's encoder never
emits) is outside the embedded fragment. -/
def parseNumAbs (l : List Char) : Option (Nat × Nat × List Char) :=
  match parseNatPart l with
  | none => none
  | some (n, _, rest) =>
    match rest with
    | '.' :: rest2 =>
      match parseNatPart rest2 with
      | none => none
      | some (f, fc, rest3) => some (n * 10 ^ fc + f, fc, rest3)
    | _ => some (n, 0, rest)

/-- Read a JSON number (optionally signed). -/
def parseJsonNum (l : List Char) : Option (Json × List Char) :=
  match l with
  | '-' :: rest => (parseNumAbs rest).map (fun r => (.num (-(r.1 : Int)) r.2.1, r.2.2))
  | _ => (parseNumAbs l).map (fun r => (.num (r.1 : Int) r.2.1, r.2.2))

/-- One short JSON escape (`\"` `\\` `\/` `\b` `\f` `\n` `\r` `\t`). -/
def simpleEscape (e : Char) : Option Char :=
  if e = '"' then some '"'
  else if e = '\\' then some '\\'
  else if e = '/' then some '/'
  else if e = 'b' then some (Char.ofNat 8)
  else if e = 'f' then some (Char.ofNat 12)
  else if e = 'n' then some '\n'
  else if e = 'r' then some '\r'
  else if e = 't' then some '\t'
  else none

/-- One hexadecimal digit's value (both cases accepted, as CPython does). -/
def hexVal (c : Char) : Option Nat :=
  if 48 ≤ c.toNat ∧ c.toNat ≤ 57 then some (c.toNat - 48)
  else if 97 ≤ c.toNat ∧ c.toNat ≤ 102 then some (c.toNat - 87)
  else if 65 ≤ c.toNat ∧ c.toNat ≤ 70 then some (c.toNat - 55)
  else none

/-- Four hexadecimal digits' value. -/
def hex4Val (a b c d : Char) : Option Nat :=
  match hexVal a, hexVal b, hexVal c, hexVal d with
  | some ha, some hb, some hc, some hd => some (ha * 4096 + hb * 256 + hc * 16 + hd)
  | _, _, _, _ => none

/-- The body of a JSON string after the opening quote: the decoded
characters and the rest after the closing quote.  `\uXXXX` escapes are
decoded, a high surrogate followed by a low one combining into one scalar
value; a *lone* surrogate escape (which CPython would keep as a lone
surrogate code unit, a value a scalar-value `Char` cannot carry, and which
the repository's encoder never emits) makes the parse fail.  The fuel
counts decoded characters: one unit per output character, so
`input length + 1` (what every call site passes) always suffices. -/
def parseStringBody : Nat → List Char → Option (List Char × List Char)
  | 0, _ => none
  | _ + 1, [] => none
  | f + 1, c0 :: cs =>
    if c0 = '"' then some ([], cs)
    else if c0 = '\\' then
      match cs with
      | [] => none
      | e :: cs2 =>
        if e = 'u' then
          match cs2 with
          | a :: b :: c :: d :: cs3 =>
            match hex4Val a b c d with
            | some v =>
              if 55296 ≤ v ∧ v ≤ 56319 then
                match cs3 with
                | b1 :: u1 :: a2 :: b2 :: c2 :: d2 :: cs4 =>
                  if b1 = '\\' ∧ u1 = 'u' then
                    match hex4Val a2 b2 c2 d2 with
                    | some w =>
                      if 56320 ≤ w ∧ w ≤ 57343 then
                        (parseStringBody f cs4).map
                          (fun r =>
                            (Char.ofNat (65536 + (v - 55296) * 1024 + (w - 56320)) :: r.1, r.2))
                      else none
                    | none => none
                  else none
                | _ => none
              else if v < 55296 ∨ 57344 ≤ v then
                (parseStringBody f cs3).map (fun r => (Char.ofNat v :: r.1, r.2))
              else none
            | none => none
          | _ => none
        else
          match simpleEscape e with
          | some ch => (parseStringBody f cs2).map (fun r => (ch :: r.1, r.2))
          | none => none
    else (parseStringBody f cs).map (fun r => (c0 :: r.1, r.2))

mutual

/-- Parse one JSON value (fuel-indexed; every recursive call consumes at
least one input character first, so `input length + 1` fuel always
suffices — `jsonLoads` passes exactly that). -/
def parseVal : Nat → List Char → Option (Json × List Char)
  | 0, _ => none
  | fuel + 1, input =>
    match skipWs input with
    | [] => none
    | c :: cs =>
      if c = '{' then
        match skipWs cs with
        | '}' :: rest => some (.obj [], rest)
        | cs2 => parseMembers fuel cs2 []
      else if c = '[' then
        match skipWs cs with
        | ']' :: rest => some (.arr [], rest)
        | cs2 => parseElems fuel cs2 []
      else if c = '"' then
        match parseStringBody (cs.length + 1) cs with
        | some (content, rest) => some (.str ⟨content⟩, rest)
        | none => none
      else if c = 'n' then
        match cs with
        | 'u' :: 'l' :: 'l' :: rest => some (.null, rest)
        | _ => none
      else if c = 't' then
        match cs with
        | 'r' :: 'u' :: 'e' :: rest => some (.bool true, rest)
        | _ => none
      else if c = 'f' then
        match cs with
        | 'a' :: 'l' :: 's' :: 'e' :: rest => some (.bool false, rest)
        | _ => none
      else parseJsonNum (c :: cs)

/-- Parse `"key" : value (, "key" : value)* }` after at least one member is
known to follow. -/
def parseMembers : Nat → List Char → List (String × Json) → Option (Json × List Char)
  | 0, _, _ => none
  | fuel + 1, input, acc =>
    match skipWs input with
    | '"' :: cs =>
      match parseStringBody (cs.length + 1) cs with
      | some (key, rest1) =>
        match skipWs rest1 with
        | ':' :: rest2 =>
          match parseVal fuel rest2 with
          | some (v, rest3) =>
            match skipWs rest3 with
            | ',' :: rest4 => parseMembers fuel rest4 (acc ++ [(⟨key⟩, v)])
            | '}' :: rest4 => some (.obj (acc ++ [(⟨key⟩, v)]), rest4)
            | _ => none
          | none => none
        | _ => none
      | none => none
    | _ => none

/-- Parse `value (, value)* ]` after at least one element is known to
follow. -/
def parseElems : Nat → List Char → List Json → Option (Json × List Char)
  | 0, _, _ => none
  | fuel + 1, input, acc =>
    match parseVal fuel input with
    | some (v, rest) =>
      match skipWs rest with
      | ',' :: rest2 => parseElems fuel rest2 (acc ++ [v])
      | ']' :: rest2 => some (.arr (acc ++ [v]), rest2)
      | _ => none
    | none => none

end

/-- `json.loads`: parse one value and require only whitespace after it. -/
def jsonLoads (s : String) : Option Json :=
  match parseVal (s.data.length + 1) s.data with
  | some (j, rest) => if (skipWs rest).isEmpty then some j else none
  | none => none

/-- The JSON value `json.loads` recovers from an encoded `timing_sec`. -/
def timingJson (t : TimingInfo) : Json :=
  .obj [("analyzer", .num t.analyzer.mant t.analyzer.frac),
        ("service", .num t.service.mant t.service.frac)]

/-- The JSON value `json.loads` recovers from an encoded `chat_summary`. -/
def summaryJson : Option String → Json
  | none => .null
  | some s => .str s

/-- The JSON value `json.loads` recovers from an encoded `token_counts`. -/
def tokenCountsJson : Option TokenCounts → Json
  | none => .obj []
  | some t =>
    .obj [("history_estimate", .num t.history_estimate 0),
          ("summary_estimate", .num t.summary_estimate 0)]

/-- The JSON value `json.loads` recovers from the whole record payload. -/
def payloadJson (conversation_id patient_id : String) (all_patient_ids : List String)
    (timing : TimingInfo) (chat_summary : Option String)
    (token_counts : Option TokenCounts) : Json :=
  .obj [("conversation_id", .str conversation_id),
        ("patient_id", .str patient_id),
        ("all_patient_ids", .arr (all_patient_ids.map .str)),
        ("timing_sec", timingJson timing),
        ("chat_summary", summaryJson chat_summary),
        ("token_counts", tokenCountsJson token_counts)]

/-! ## The service (`src/src/services/patient_context_service.py`) -/

namespace PatientContextService

/-- `_estimate_tokens`: rough estimate, `max(1, len(text) // 4)`. -/
def _estimate_tokens (text : String) : Nat := max 1 (text.length / 4)

/-- `_activate_patient` (lines 138–164): same id wins first, then switch to
a registered id, else create a blank context and append it. The Python
guard `if not patient_id` is an empty-string test (the `None` case is
already filtered by the caller's `if pid`). -/
def _activate_patient (patient_id : String) (chat_ctx : ChatContext) :
    Decision × ChatContext :=
  if patient_id = "" then (.NONE, chat_ctx)
  else if some patient_id = chat_ctx.patient_id then (.UNCHANGED, chat_ctx)
  else if chat_ctx.knownIds.contains patient_id then
    (.SWITCH_EXISTING, { chat_ctx with patient_id := some patient_id })
  else
    (.NEW_BLANK,
      { chat_ctx with
        patient_contexts :=
          chat_ctx.patient_contexts ++ [(patient_id, { patient_id := patient_id })],
        patient_id := some patient_id })

/-- `_clear` (lines 166–170): null the active pointer, retain the registry. -/
def _clear (chat_ctx : ChatContext) : ChatContext :=
  { chat_ctx with patient_id := none }

/-- `_remove_system_message` (lines 172–206): drop every synthetic record
from the transcript. -/
def _remove_system_message (chat_ctx : ChatContext) : ChatContext :=
  { chat_ctx with messages := chat_ctx.messages.filter (fun m => !isPatientContextMsg m) }

/-- `_ensure_system_message` (lines 208–241): remove every record, then —
unless the active pointer is falsy (`if not chat_ctx.patient_id`: `None` or
the empty string) — insert the fresh record at index 0. -/
def _ensure_system_message (chat_ctx : ChatContext) (timing : TimingInfo)
    (chat_summary : Option String) (token_counts : Option TokenCounts) : ChatContext :=
  let ctx1 := _remove_system_message chat_ctx
  match ctx1.patient_id with
  | none => ctx1
  | some pid =>
    if pid = "" then ctx1
    else
      let line : String :=
        ⟨ PATIENT_CONTEXT_PREFIX.data ++ ' ' ::
          payloadLine ctx1.conversation_id pid ctx1.knownIds timing chat_summary token_counts⟩
      { ctx1 with messages := ⟨.system, .text line⟩ :: ctx1.messages }

/-- The fresh record message `_ensure_system_message` builds: the marker, a
space, and the compact-JSON payload, as a system-role string message. -/
def recordMsg (conversation_id patient_id : String) (all_patient_ids : List String)
    (ti : TimingInfo) (su : Option String) (tc : Option TokenCounts) : ChatMessageContent :=
  ⟨.system, .text ⟨ PATIENT_CONTEXT_PREFIX.data ++ ' ' ::
    payloadLine conversation_id patient_id all_patient_ids ti su tc⟩⟩

/-- `str()` of a message role as `decide_and_apply`'s history join renders
it (only the history text's length feeds back into the engine, via the
token estimate). -/
def roleStr : AuthorRole → String
  | .system => "AuthorRole.SYSTEM"
  | .user => "AuthorRole.USER"
  | .assistant => "AuthorRole.ASSISTANT"

/-- `m.content if isinstance(m.content, str) else str(m.content or "")`.
For structured content this stands in for CPython's `str()` rendering; no
claim depends on its value, only on which messages enter the join. -/
def msgContentStr : MsgContent → String
  | .text s => s
  | .parts ps => pyJoin "" ps

/-- One line of the history join of `decide_and_apply` (lines 96–100). -/
def historyLine (m : ChatMessageContent) : String :=
  roleStr m.role ++ ": " ++ msgContentStr m.content

/-- `history_text` of `decide_and_apply`: the newline-join over every
non-record message, truncated to 8000 characters. -/
def historyText (ctx : ChatContext) : String :=
  pyTake (pyJoin "\n" ((ctx.messages.filter (fun m => !isPatientContextMsg m)).map historyLine)) 8000

/-- The transition step of `decide_and_apply` (lines 68–80): the decision
dispatch on the classifier's action, including the caller-side truthiness
guard `self._activate_patient(pid, chat_ctx) if pid else "NONE"`. -/
def transition (action : AnalyzerAction) (pid : Option String)
    (chat_ctx : ChatContext) : Decision × ChatContext :=
  match action with
  | .CLEAR => (.CLEAR, _clear chat_ctx)
  | .ACTIVATE_NEW | .SWITCH_EXISTING =>
    match pid with
    | some p => if p = "" then (.NONE, chat_ctx) else _activate_patient p chat_ctx
    | none => (.NONE, chat_ctx)
  | .UNCHANGED => (.UNCHANGED, chat_ctx)
  | .NONE => (.NONE, chat_ctx)

/-- `chat_summary` of `decide_and_apply` (lines 95–108): `None` when the
stripped history text is empty (the summarizer is not called), otherwise
the summarizer's text, degraded to the fixed marker on a raised exception. -/
def computedSummary (summaryOutcome : Except Unit String) (history_text : String) :
    Option String :=
  if pyStrip history_text = "" then none
  else
    match summaryOutcome with
    | .ok s => some s
    | .error _ => some "Chat summary unavailable"

/-- `token_counts` of `decide_and_apply` (lines 110–113); the summary
estimate is `0` for a falsy (`None` or empty) summary. -/
def computedTokenCounts (history_text : String) (chat_summary : Option String) :
    TokenCounts :=
  { history_estimate := _estimate_tokens history_text
    summary_estimate :=
      match chat_summary with
      | some s => if s = "" then 0 else _estimate_tokens s
      | none => 0 }

/-- `decide_and_apply` (lines 39–134). The classifier call is an external
request; its result `(action, pid)` is an argument, as is the summarizer
call's outcome (`Except Unit String`: `.error` is a raised exception) and
the wall-clock timing pair. Returns the decision and the mutated context. -/
def decide_and_apply (action : AnalyzerAction) (pid : Option String)
    (summaryOutcome : Except Unit String) (timing : TimingInfo)
    (chat_ctx : ChatContext) : Decision × ChatContext :=
  let step := transition action pid chat_ctx
  let decision := step.1
  let ctx1 := step.2
  let history_text := historyText ctx1
  let chat_summary := computedSummary summaryOutcome history_text
  let token_counts := computedTokenCounts history_text chat_summary
  let ctx2 :=
    if decision = .CLEAR then _remove_system_message ctx1
    else _ensure_system_message ctx1 timing chat_summary (some token_counts)
  (decision, ctx2)

/-- The external inputs of one turn (classifier result, summarizer outcome,
wall clock), for reasoning over sequences of turns. -/
structure TurnInput where
  action : AnalyzerAction
  pid : Option String
  summary : Except Unit String
  timing : TimingInfo

/-- The context after one `decide_and_apply` turn. -/
def runTurn (t : TurnInput) (ctx : ChatContext) : ChatContext :=
  (decide_and_apply t.action t.pid t.summary t.timing ctx).2

/-- The context after a sequence of `decide_and_apply` turns. -/
def runTurns (ctx : ChatContext) : List TurnInput → ChatContext
  | [] => ctx
  | t :: ts => runTurns (runTurn t ctx) ts

end PatientContextService

/-- Python truthiness of the optional active id (`if chat_ctx.patient_id`):
false for `None` and for the empty string. -/
def pyTruthyStr : Option String → Bool
  | none => false
  | some s => !(s == "")

/-! ## The analyzer (`src/src/services/patient_context_analyzer.py`) -/

namespace PatientContextAnalyzer

/-- The outcome of the external chat-completion request inside `analyze`:
either a raised exception (transport error, timeout, auth …) or a response
normalized to its content string (lines 107–132). -/
inductive LlmOutcome where
  | failure
  | response (content : String)

/-- The backquote character (code-fence stripping). -/
def backquote : Char := Char.ofNat 96

/-- Lines 139–143: `content.strip("`")`, then, when a newline remains, drop
the first line and strip — the accidental-code-fence path. -/
def stripCodeFence (s : String) : String :=
  let l1 := stripBoth (fun c => c == backquote) s.data
  if l1.contains '\n' then pyStrip ⟨(l1.dropWhile (fun c => !(c == '\n'))).drop 1⟩
  else ⟨l1⟩

/-- The content `json.loads` receives: stripped, code fences removed. -/
def normalizedContent (raw : String) : String :=
  let content := pyStrip raw
  if pyStartsWith content "```" then stripCodeFence content else content

/-- Python `str()` of a decoded JSON value, as applied to `patient_id`
(line 155).  For the scalar values the claims exercise this matches
CPython; the list/dict reprs are stand-ins (no claim depends on them). -/
def pyStrOfJson : Json → String
  | .str s => s
  | .num m e => ⟨dumpsNum ⟨m, e⟩⟩
  | .bool true => "True"
  | .bool false => "False"
  | .null => "None"
  | .arr _ => "[…]"
  | .obj _ => "\x7b…\x7d"

/-- `(data.get("action") or "")` followed by `.strip()`:
`none` models the `AttributeError` a non-string truthy value raises (caught
by the enclosing handler); falsy values collapse to `""`. -/
def actionStrOfGet : Option Json → Option String
  | none => some ""
  | some .null => some ""
  | some (.str s) => some s
  | some (.bool false) => some ""
  | some (.bool true) => none
  | some (.num m _) => if m = 0 then some "" else none
  | some (.arr xs) => if xs.isEmpty then some "" else none
  | some (.obj kvs) => if kvs.isEmpty then some "" else none

/-- Lines 153–155: `pid = data.get("patient_id"); if pid is not None:
pid = str(pid).strip()`. -/
def pidOfGet : Option Json → Option String
  | none => none
  | some .null => none
  | some j => some (pyStrip (pyStrOfJson j))

/-- The closed five-tag validation set (line 157). -/
def actionOfString (s : String) : Option AnalyzerAction :=
  if s = "NONE" then some .NONE
  else if s = "CLEAR" then some .CLEAR
  else if s = "ACTIVATE_NEW" then some .ACTIVATE_NEW
  else if s = "SWITCH_EXISTING" then some .SWITCH_EXISTING
  else if s = "UNCHANGED" then some .UNCHANGED
  else none

/-- `analyze` (lines 50–170), with the external call's outcome as an
argument.  The wall-clock `duration` of the returned triple is a reading of
`time.time()` and is not represented; the function returns the
`(action, patient_id)` part.  Every failure path — empty input, raised
transport error, empty content, JSON decode failure, non-dict payload, a
non-string truthy `action` value (whose `.strip()` raises `AttributeError`,
caught by the same handler), or an action tag outside the closed set —
lands on `(NONE, none)`. -/
def analyze (user_text : String) (llm : LlmOutcome) : AnalyzerAction × Option String :=
  if user_text = "" then (.NONE, none)
  else
    match llm with
    | .failure => (.NONE, none)
    | .response raw =>
      let content := pyStrip raw
      if content = "" then (.NONE, none)
      else
        match jsonLoads (normalizedContent raw) with
        | none => (.NONE, none)
        | some (.obj kvs) =>
          match actionStrOfGet (objGet kvs "action") with
          | none => (.NONE, none)
          | some araw =>
            let action := pyUpper (pyStrip araw)
            let pid := pidOfGet (objGet kvs "patient_id")
            match actionOfString action with
            | some a => (a, pid)
            | none => (.NONE, none)
        | some _ => (.NONE, none)

end PatientContextAnalyzer

/-! ## The renderer-side consumer (`src/src/bots/assistant_bot.py`) -/

namespace AssistantBot

/-- The flat text of a message's content, as the consumer's
string/itemized branch extracts it (lines 265–280): a string verbatim, an
itemized content as the concatenation of its items' texts. -/
def msgText (m : ChatMessageContent) : String :=
  match m.content with
  | .text s => s
  | .parts ps => pyJoin "" ps

/-- `_get_system_patient_context_json` (lines 261–288): the first
system-role message whose text starts with the marker decides the result —
the stripped remainder after the marker (an optional leading `:` also
stripped), or `None` when that remainder is empty; later messages are not
consulted. -/
def _get_system_patient_context_json : List ChatMessageContent → Option String
  | [] => none
  | m :: rest =>
    if m.role = .system then
      let text := msgText m
      if text ≠ "" ∧ pyStartsWith text PATIENT_CONTEXT_PREFIX then
        let jp := pyStrip (pyDrop text PATIENT_CONTEXT_PREFIX.length)
        let jp := if pyStartsWith jp ":" then pyStrip (pyDrop jp 1) else jp
        if jp = "" then none else some jp
      else _get_system_patient_context_json rest
    else _get_system_patient_context_json rest

/-- Python truthiness of a decoded JSON value (`obj.get(k)` used in an
`if`). -/
def jsonTruthy : Option Json → Bool
  | none => false
  | some .null => false
  | some (.bool b) => b
  | some (.num m _) => !(m == 0)
  | some (.str s) => !(s == "")
  | some (.arr xs) => !xs.isEmpty
  | some (.obj kvs) => !kvs.isEmpty

/-- Structural equality of decoded JSON values (`p == active_id` in the
session-patients line).  Python compares parsed JSON values structurally;
the claims never reach the nested cases. -/
def jsonEqb : Json → Json → Bool
  | .null, .null => true
  | .bool a, .bool b => a == b
  | .num m e, .num m' e' => m == m' && e == e'
  | .str s, .str t => s == t
  | _, _ => false

/-- One rendered session-patient item: `` `p` `` plus `" (active)"` when
`p` equals the active id. -/
def sessionPatientItem (activeId : Option Json) (p : Json) : String :=
  "`" ++ PatientContextAnalyzer.pyStrOfJson p ++ "`" ++
    (match activeId with
     | some a => if jsonEqb p a then " (active)" else ""
     | none => "")

/-- `summary.replace("\n", " ")`. -/
def replaceNewlines (s : String) : String :=
  ⟨s.data.map (fun c => if c = '\n' then ' ' else c)⟩

/-- The `Session Patients` line (lines 316–319): iterate the truthy
`all_patient_ids` value.  A list iterates its elements; a string its
characters; a dict its keys; iterating a number or `True` raises
`TypeError`, which no handler catches (`none`). -/
def sessionLine (kvs : List (String × Json)) : Option (List String) :=
  match objGet kvs "all_patient_ids" with
  | some (.arr ps) =>
    some (if ps.isEmpty then [] else
      ["- **Session Patients:** " ++
        pyJoin ", " (ps.map (sessionPatientItem (objGet kvs "patient_id")))])
  | some (.str s) =>
    some (if s = "" then [] else
      ["- **Session Patients:** " ++
        pyJoin ", " (s.data.map (fun c => sessionPatientItem (objGet kvs "patient_id")
          (.str ⟨[c]⟩)))])
  | some (.obj kvs') =>
    some (if kvs'.isEmpty then [] else
      ["- **Session Patients:** " ++
        pyJoin ", " (kvs'.map (fun kv => sessionPatientItem (objGet kvs "patient_id")
          (.str kv.1)))])
  | some (.num m _) => if m = 0 then some [] else none
  | some (.bool b) => if b then none else some []
  | some .null => some []
  | none => some []

/-- The `Summary` line (lines 321–325): a truthy `chat_summary` is
`.replace`d and stripped — `.replace` on a truthy non-string raises
`AttributeError`, which no handler catches (`none`). -/
def summaryLine (kvs : List (String × Json)) : Option (List String) :=
  match objGet kvs "chat_summary" with
  | some (.str s) =>
    some (if s = "" then [] else
      let summary := pyStrip (replaceNewlines s)
      if summary = "" then [] else ["- **Summary:** *" ++ summary ++ "*"])
  | some .null => some []
  | some (.bool b) => if b then none else some []
  | some (.num m _) => if m = 0 then some [] else none
  | some (.arr xs) => if xs.isEmpty then some [] else none
  | some (.obj kvs') => if kvs'.isEmpty then some [] else none
  | none => some []

/-- The markdown lines `_append_pc_ctx` builds from a decoded payload
object (lines 310–328); `none` is an uncaught exception on the way. -/
def pcCtxLines (kvs : List (String × Json)) : Option (List String) :=
  match sessionLine kvs, summaryLine kvs with
  | some session, some summary =>
    some (["\n\n---", "\n*PT_CTX:*"] ++
      (if jsonTruthy (objGet kvs "patient_id") then
        ["- **Patient ID:** `" ++
          (match objGet kvs "patient_id" with
           | some j => PatientContextAnalyzer.pyStrOfJson j
           | none => "None") ++ "`"] else []) ++
      (if jsonTruthy (objGet kvs "conversation_id") then
        ["- **Conversation ID:** `" ++
          (match objGet kvs "conversation_id" with
           | some j => PatientContextAnalyzer.pyStrOfJson j
           | none => "None") ++ "`"] else []) ++
      session ++ summary ++
      (if !jsonTruthy (objGet kvs "patient_id") then ["- *No active patient.*"] else []))
  | _, _ => none

/-- `_append_pc_ctx` (lines 290–343).  `none` models an uncaught exception:
`obj.get` on a non-dict payload (`AttributeError`; the only `except` clause
is for `json.JSONDecodeError`), or a raise inside the line builders. -/
def _append_pc_ctx (base : String) (messages : List ChatMessageContent) : Option String :=
  if strContains base "\nPC_CTX" || strContains base "\n*PT_CTX:*" then some base
  else
    match _get_system_patient_context_json messages with
    | none => some base
    | some json_payload =>
      match jsonLoads json_payload with
      | some (.obj kvs) =>
        match pcCtxLines kvs with
        | some lines =>
          if lines.length > 2 then some (base ++ pyJoin "\n" lines) else some base
        | none => none
      | some _ => none
      | none =>
        some (base ++ "\n\n---\n*PT_CTX (raw):* `" ++ json_payload ++ "`")

end AssistantBot

/-- A character list that cannot extend a JSON number to its left: its head
(if any) is neither a digit nor a decimal point.  The compact encoder always
follows a number with `,` or `}`, which satisfy this. -/
def numBoundary (rest : List Char) : Prop :=
  ∀ c, rest.head? = some c → isDigitChar c = false ∧ c ≠ '.'

/-! ## Lemmas about the string primitives and filters -/

theorem matchesAt_nil (l : List Char) : matchesAt l [] = true := by
  cases l <;> rfl

theorem matchesAt_append (p rest : List Char) : matchesAt (p ++ rest) p = true := by
  induction p with
  | nil => exact matchesAt_nil rest
  | cons c cs ih => simp [matchesAt, ih]

theorem hasSub_nil (l : List Char) : hasSub l [] = true := by
  induction l with
  | nil => rfl
  | cons a t ih => simp [hasSub, matchesAt_nil]

theorem hasSub_append (pre pat suf : List Char) :
    hasSub (pre ++ (pat ++ suf)) pat = true := by
  induction pre with
  | nil =>
    cases pat with
    | nil => exact hasSub_nil _
    | cons p ps =>
      have : matchesAt ((p :: ps) ++ suf) (p :: ps) = true := matchesAt_append _ _
      simp only [List.nil_append, hasSub]
      simp_all
  | cons a t ih => simp [hasSub, ih]

theorem filter_not_filter {α : Type} (p : α → Bool) (l : List α) :
    (l.filter fun a => !p a).filter p = [] := by
  induction l with
  | nil => rfl
  | cons a t ih => by_cases h : p a <;> simp [List.filter_cons, h, ih]

theorem filter_filter_self {α : Type} (p : α → Bool) (l : List α) :
    (l.filter p).filter p = l.filter p := by
  induction l with
  | nil => rfl
  | cons a t ih => by_cases h : p a <;> simp [List.filter_cons, h, ih]

/-- The freshly built record message satisfies the service's own record
predicate: its content string starts with the marker. -/
theorem isPatientContextMsg_record (rest : List Char) :
    isPatientContextMsg ⟨.system, .text ⟨ PATIENT_CONTEXT_PREFIX.data ++ rest⟩⟩ = true := by
  simp only [isPatientContextMsg, pyStartsWith]
  exact matchesAt_append _ _

namespace PatientContextService

/-! ## Structural lemmas about the service's helpers -/

theorem remove_patient_id (c : ChatContext) :
    (_remove_system_message c).patient_id = c.patient_id := rfl

theorem remove_patient_contexts (c : ChatContext) :
    (_remove_system_message c).patient_contexts = c.patient_contexts := rfl

theorem ensure_patient_id (c : ChatContext) (ti : TimingInfo)
    (su : Option String) (tc : Option TokenCounts) :
    (_ensure_system_message c ti su tc).patient_id = c.patient_id := by
  unfold _ensure_system_message _remove_system_message
  cases hc : c.patient_id with
  | none => simp [hc]
  | some p => by_cases hp : p = "" <;> simp [hc, hp]

theorem ensure_patient_contexts (c : ChatContext) (ti : TimingInfo)
    (su : Option String) (tc : Option TokenCounts) :
    (_ensure_system_message c ti su tc).patient_contexts = c.patient_contexts := by
  unfold _ensure_system_message _remove_system_message
  cases hc : c.patient_id with
  | none => simp [hc]
  | some p => by_cases hp : p = "" <;> simp [hc, hp]

theorem dda_decision (a : AnalyzerAction) (pid : Option String)
    (so : Except Unit String) (ti : TimingInfo) (ctx : ChatContext) :
    (decide_and_apply a pid so ti ctx).1 = (transition a pid ctx).1 := rfl

theorem dda_patient_id (a : AnalyzerAction) (pid : Option String)
    (so : Except Unit String) (ti : TimingInfo) (ctx : ChatContext) :
    (decide_and_apply a pid so ti ctx).2.patient_id = (transition a pid ctx).2.patient_id := by
  unfold decide_and_apply
  by_cases h : (transition a pid ctx).1 = Decision.CLEAR <;>
    simp [h, ensure_patient_id, remove_patient_id]

theorem dda_patient_contexts (a : AnalyzerAction) (pid : Option String)
    (so : Except Unit String) (ti : TimingInfo) (ctx : ChatContext) :
    (decide_and_apply a pid so ti ctx).2.patient_contexts =
      (transition a pid ctx).2.patient_contexts := by
  unfold decide_and_apply
  by_cases h : (transition a pid ctx).1 = Decision.CLEAR <;>
    simp [h, ensure_patient_contexts, remove_patient_contexts]

/-- The transition step either leaves the registry untouched, or (exactly
when a fresh non-empty candidate unknown to the registry and different from
the active pointer is activated) appends one blank entry at the end. -/
theorem transition_registry (a : AnalyzerAction) (pid : Option String) (ctx : ChatContext) :
    (transition a pid ctx).2.patient_contexts = ctx.patient_contexts ∨
    ∃ p, pid = some p ∧
      (transition a pid ctx).2.patient_contexts =
        ctx.patient_contexts ++ [(p, { patient_id := p })] := by
  cases a
  case NONE => left; rfl
  case CLEAR => left; rfl
  case UNCHANGED => left; rfl
  all_goals
    cases pid with
    | none => left; rfl
    | some p =>
      by_cases hp : p = ""
      · left; simp [transition, hp]
      · by_cases h1 : some p = ctx.patient_id
        · left; simp [transition, _activate_patient, hp, h1]
        · by_cases h2 : p ∈ ctx.knownIds
          · left; simp [transition, _activate_patient, hp, h1, h2]
          · right; exact ⟨p, rfl, by simp [transition, _activate_patient, hp, h1, h2]⟩

/-- `_activate_patient` on an empty id: no-op `NONE`. -/
theorem activate_result_empty (p : String) (ctx : ChatContext) (hp : p = "") :
    _activate_patient p ctx = (.NONE, ctx) := by
  unfold _activate_patient
  rw [if_pos hp]

/-- `_activate_patient` on the already-active id: no-op `UNCHANGED`. -/
theorem activate_result_same (p : String) (ctx : ChatContext) (hp : p ≠ "")
    (h1 : some p = ctx.patient_id) :
    _activate_patient p ctx = (.UNCHANGED, ctx) := by
  unfold _activate_patient
  rw [if_neg hp, if_pos h1]

/-- `_activate_patient` on a registered, non-active id: switch. -/
theorem activate_result_known (p : String) (ctx : ChatContext) (hp : p ≠ "")
    (h1 : ¬some p = ctx.patient_id) (h2 : p ∈ ctx.knownIds) :
    _activate_patient p ctx = (.SWITCH_EXISTING, { ctx with patient_id := some p }) := by
  have hc : ctx.knownIds.contains p = true := List.elem_eq_true_of_mem h2
  unfold _activate_patient
  rw [if_neg hp, if_neg h1, if_pos hc]

/-- `_activate_patient` on an unregistered, non-active id: fresh blank
context appended at the end. -/
theorem activate_result_unknown (p : String) (ctx : ChatContext) (hp : p ≠ "")
    (h1 : ¬some p = ctx.patient_id) (h2 : p ∉ ctx.knownIds) :
    _activate_patient p ctx =
      (.NEW_BLANK,
        { ctx with
          patient_contexts := ctx.patient_contexts ++ [(p, { patient_id := p })],
          patient_id := some p }) := by
  unfold _activate_patient
  rw [if_neg hp, if_neg h1, if_neg (by simpa using h2)]

/-- For the two activation tags, the transition is `_activate_patient`
(past the caller's truthiness guard). -/
theorem transition_activate (a : AnalyzerAction)
    (ha : a = .ACTIVATE_NEW ∨ a = .SWITCH_EXISTING) (p : String) (ctx : ChatContext)
    (hp : p ≠ "") :
    transition a (some p) ctx = _activate_patient p ctx := by
  rcases ha with h | h <;> subst h <;> simp [transition, hp]

/-- `_activate_patient` never returns the `CLEAR` decision. -/
theorem activate_ne_clear (p : String) (ctx : ChatContext) :
    (_activate_patient p ctx).1 ≠ Decision.CLEAR := by
  unfold _activate_patient
  split_ifs <;> simp

/-- A `CLEAR` decision comes from the `CLEAR` action alone, whose transition
nulls the active pointer. -/
theorem transition_clear_pid (a : AnalyzerAction) (pid : Option String) (ctx : ChatContext)
    (h : (transition a pid ctx).1 = Decision.CLEAR) :
    (transition a pid ctx).2.patient_id = none := by
  cases a
  case CLEAR => rfl
  case NONE => simp [transition] at h
  case UNCHANGED => simp [transition] at h
  all_goals
    cases pid with
    | none => simp [transition] at h
    | some p =>
      by_cases hp : p = ""
      · simp [transition, hp] at h
      · simp only [transition, if_neg hp] at h
        exact absurd h (activate_ne_clear p ctx)

/-- The context part of `decide_and_apply` when the decision is `CLEAR`. -/
theorem dda_result_clear (a : AnalyzerAction) (pid : Option String)
    (so : Except Unit String) (ti : TimingInfo) (ctx : ChatContext)
    (h : (transition a pid ctx).1 = Decision.CLEAR) :
    (decide_and_apply a pid so ti ctx).2 =
      _remove_system_message (transition a pid ctx).2 := by
  simp [decide_and_apply, h]

/-- The context part of `decide_and_apply` for every other decision. -/
theorem dda_result_not_clear (a : AnalyzerAction) (pid : Option String)
    (so : Except Unit String) (ti : TimingInfo) (ctx : ChatContext)
    (h : ¬(transition a pid ctx).1 = Decision.CLEAR) :
    (decide_and_apply a pid so ti ctx).2 =
      _ensure_system_message (transition a pid ctx).2 ti
        (computedSummary so (historyText (transition a pid ctx).2))
        (some (computedTokenCounts (historyText (transition a pid ctx).2)
          (computedSummary so (historyText (transition a pid ctx).2)))) := by
  simp [decide_and_apply, h]

theorem isPatientContextMsg_recordMsg (cid p : String) (ids : List String)
    (ti : TimingInfo) (su : Option String) (tc : Option TokenCounts) :
    isPatientContextMsg (recordMsg cid p ids ti su tc) = true :=
  isPatientContextMsg_record _

/-- `_ensure_system_message` with a truthy active pointer: the record goes
to index 0, above the preserved non-record messages. -/
theorem ensure_eq_truthy (c : ChatContext) (ti : TimingInfo) (su : Option String)
    (tc : Option TokenCounts) (p : String) (hc : c.patient_id = some p) (hp : p ≠ "") :
    _ensure_system_message c ti su tc =
      { c with messages := recordMsg c.conversation_id p c.knownIds ti su tc ::
          c.messages.filter (fun m => !isPatientContextMsg m) } := by
  unfold _ensure_system_message _remove_system_message recordMsg
  simp [hc, hp, ChatContext.knownIds]

/-- `_ensure_system_message` with a falsy (`None` or empty) active pointer:
pure removal. -/
theorem ensure_eq_falsy (c : ChatContext) (ti : TimingInfo) (su : Option String)
    (tc : Option TokenCounts) (hc : pyTruthyStr c.patient_id = false) :
    _ensure_system_message c ti su tc =
      { c with messages := c.messages.filter (fun m => !isPatientContextMsg m) } := by
  unfold _ensure_system_message _remove_system_message
  cases hcc : c.patient_id with
  | none => simp [hcc]
  | some p =>
    have hp : p = "" := by simpa [pyTruthyStr, hcc] using hc
    simp [hcc, hp]

end PatientContextService

/-! ## Claims about the state machine and the synchronizer -/

open PatientContextService

/-- C1 (amended): after every completed `decide_and_apply` step, the
transcript contains a synthetic context record (a system-role message whose
string content starts with the marker) iff the active patient id is non-null
*and non-empty* after the step; when present there is exactly one such
record and it is at index 0. -/
theorem c1_record_iff_truthy_active (action : AnalyzerAction) (pid : Option String)
    (so : Except Unit String) (ti : TimingInfo) (ctx : ChatContext) :
    (pyTruthyStr (decide_and_apply action pid so ti ctx).2.patient_id = true →
      ∃ m t, (decide_and_apply action pid so ti ctx).2.messages = m :: t ∧
        isPatientContextMsg m = true ∧ t.filter isPatientContextMsg = []) ∧
    (pyTruthyStr (decide_and_apply action pid so ti ctx).2.patient_id = false →
      (decide_and_apply action pid so ti ctx).2.messages.filter isPatientContextMsg = []) := by
  by_cases hd : (transition action pid ctx).1 = Decision.CLEAR
  · have hres := dda_result_clear action pid so ti ctx hd
    have hnone := transition_clear_pid action pid ctx hd
    constructor
    · intro htruthy
      rw [hres, remove_patient_id, hnone] at htruthy
      simp [pyTruthyStr] at htruthy
    · intro _
      rw [hres]
      exact filter_not_filter _ _
  · have hres := dda_result_not_clear action pid so ti ctx hd
    set c1 := (transition action pid ctx).2 with hc1
    constructor
    · intro htruthy
      rw [hres, ensure_patient_id] at htruthy
      cases hcc : c1.patient_id with
      | none => rw [hcc] at htruthy; simp [pyTruthyStr] at htruthy
      | some p =>
        rw [hcc] at htruthy
        have hp : p ≠ "" := by
          intro he; rw [he] at htruthy; simp [pyTruthyStr] at htruthy
        refine ⟨recordMsg c1.conversation_id p c1.knownIds ti
            (computedSummary so (historyText c1))
            (some (computedTokenCounts (historyText c1) (computedSummary so (historyText c1)))),
          c1.messages.filter (fun m => !isPatientContextMsg m), ?_, ?_, ?_⟩
        · rw [hres, ensure_eq_truthy c1 _ _ _ p hcc hp]
        · exact isPatientContextMsg_recordMsg _ _ _ _ _ _
        · exact filter_not_filter _ _
    · intro hfalsy
      rw [hres, ensure_patient_id] at hfalsy
      rw [hres, ensure_eq_falsy c1 _ _ _ hfalsy]
      exact filter_not_filter _ _

/-- C1 counterexample: a context whose active id is the *empty string* (a
non-null value) keeps a non-null active id through a `NONE` turn, yet the
transcript ends with zero synthetic records — the claim's "non-null" bound
is really Python truthiness (non-null and non-empty). -/
theorem c1_cex_empty_string_active :
    (decide_and_apply .NONE none (.ok "") ⟨⟨0, 0⟩, ⟨0, 0⟩⟩
        ⟨"conv", [], some "", []⟩).2.patient_id = some "" ∧
    (some "" : Option String) ≠ none ∧
    (decide_and_apply .NONE none (.ok "") ⟨⟨0, 0⟩, ⟨0, 0⟩⟩
        ⟨"conv", [], some "", []⟩).2.messages.filter isPatientContextMsg = [] := by
  refine ⟨rfl, by simp, rfl⟩

/-- C2 counterexample: for a context whose active pointer dangles outside
the registry, a candidate equal to that active id but absent from
`known_subjects` yields `UNCHANGED` and no fresh Subject Context — not the
`NEW_BLANK` the claim requires for every unknown candidate. -/
theorem c2_cex_dangling_active :
    (decide_and_apply .ACTIVATE_NEW (some "p1") (.ok "") ⟨⟨0, 0⟩, ⟨0, 0⟩⟩
        ⟨"conv", [], some "p1", []⟩).1 = Decision.UNCHANGED ∧
    (decide_and_apply .ACTIVATE_NEW (some "p1") (.ok "") ⟨⟨0, 0⟩, ⟨0, 0⟩⟩
        ⟨"conv", [], some "p1", []⟩).2.patient_contexts = [] ∧
    "p1" ∉ (⟨"conv", [], some "p1", []⟩ : ChatContext).knownIds := by
  refine ⟨rfl, rfl, by simp [ChatContext.knownIds]⟩

/-- C2 (amended): for `ACTIVATE_NEW`/`SWITCH_EXISTING` with a non-empty
candidate that *differs from the current active id*: a registered candidate
switches (`SWITCH_EXISTING`, registry unchanged); an unregistered candidate
creates a fresh blank Subject Context appended at the end (`NEW_BLANK`),
and in both cases the candidate becomes active. -/
theorem c2_activate_or_switch (a : AnalyzerAction) (pid : Option String)
    (so : Except Unit String) (ti : TimingInfo) (ctx : ChatContext) (p : String)
    (ha : a = .ACTIVATE_NEW ∨ a = .SWITCH_EXISTING) (hpid : pid = some p)
    (hp : p ≠ "") (hdiff : some p ≠ ctx.patient_id) :
    (p ∈ ctx.knownIds →
      (decide_and_apply a pid so ti ctx).1 = Decision.SWITCH_EXISTING ∧
      (decide_and_apply a pid so ti ctx).2.patient_id = some p ∧
      (decide_and_apply a pid so ti ctx).2.patient_contexts = ctx.patient_contexts) ∧
    (p ∉ ctx.knownIds →
      (decide_and_apply a pid so ti ctx).1 = Decision.NEW_BLANK ∧
      (decide_and_apply a pid so ti ctx).2.patient_id = some p ∧
      (decide_and_apply a pid so ti ctx).2.patient_contexts =
        ctx.patient_contexts ++ [(p, { patient_id := p })]) := by
  subst hpid
  constructor <;> intro hmem <;> refine ⟨?_, ?_, ?_⟩
  · rw [dda_decision]
    rcases ha with h | h <;> subst h <;> simp [transition, _activate_patient, hp, hdiff, hmem]
  · rw [dda_patient_id]
    rcases ha with h | h <;> subst h <;> simp [transition, _activate_patient, hp, hdiff, hmem]
  · rw [dda_patient_contexts]
    rcases ha with h | h <;> subst h <;> simp [transition, _activate_patient, hp, hdiff, hmem]
  · rw [dda_decision]
    rcases ha with h | h <;> subst h <;> simp [transition, _activate_patient, hp, hdiff, hmem]
  · rw [dda_patient_id]
    rcases ha with h | h <;> subst h <;> simp [transition, _activate_patient, hp, hdiff, hmem]
  · rw [dda_patient_contexts]
    rcases ha with h | h <;> subst h <;> simp [transition, _activate_patient, hp, hdiff, hmem]

/-- C2 witness: a concrete run of the amended claim's `NEW_BLANK` branch. -/
theorem c2_witness :
    (decide_and_apply .ACTIVATE_NEW (some "p2") (.ok "") ⟨⟨0, 0⟩, ⟨0, 0⟩⟩
        ⟨"conv", [], some "p1", [("p1", { patient_id := "p1" })]⟩).1 = Decision.NEW_BLANK ∧
    (decide_and_apply .ACTIVATE_NEW (some "p2") (.ok "") ⟨⟨0, 0⟩, ⟨0, 0⟩⟩
        ⟨"conv", [], some "p1", [("p1", { patient_id := "p1" })]⟩).2.patient_id = some "p2" ∧
    (decide_and_apply .ACTIVATE_NEW (some "p2") (.ok "") ⟨⟨0, 0⟩, ⟨0, 0⟩⟩
        ⟨"conv", [], some "p1", [("p1", { patient_id := "p1" })]⟩).2.patient_contexts =
      [("p1", { patient_id := "p1" }), ("p2", { patient_id := "p2" })] :=
  (c2_activate_or_switch .ACTIVATE_NEW (some "p2") (.ok "") ⟨⟨0, 0⟩, ⟨0, 0⟩⟩
      ⟨"conv", [], some "p1", [("p1", { patient_id := "p1" })]⟩ "p2"
      (Or.inl rfl) rfl (by decide) (by decide)).2 (by decide)

/-- C3 counterexample: an *empty-string* candidate equal to the current
(empty-string) active id yields decision `NONE`, not `UNCHANGED`: the
caller's truthiness guard fires before the same-id tie-break. -/
theorem c3_cex_empty_candidate :
    (decide_and_apply .SWITCH_EXISTING (some "") (.ok "") ⟨⟨0, 0⟩, ⟨0, 0⟩⟩
        ⟨"conv", [], some "", []⟩).1 = Decision.NONE ∧
    Decision.NONE ≠ Decision.UNCHANGED ∧
    (⟨"conv", [], some "", []⟩ : ChatContext).patient_id = some "" := by
  refine ⟨rfl, by simp, rfl⟩

/-- C3 (amended): for `ACTIVATE_NEW` or `SWITCH_EXISTING` with a *non-empty*
candidate equal to the current active id, the decision is `UNCHANGED` and
neither the active pointer nor the registry is mutated, regardless of which
of the two action tags was produced. -/
theorem c3_same_id_unchanged (a : AnalyzerAction) (pid : Option String)
    (so : Except Unit String) (ti : TimingInfo) (ctx : ChatContext) (p : String)
    (ha : a = .ACTIVATE_NEW ∨ a = .SWITCH_EXISTING) (hpid : pid = some p)
    (hp : p ≠ "") (hsame : ctx.patient_id = some p) :
    (decide_and_apply a pid so ti ctx).1 = Decision.UNCHANGED ∧
    (decide_and_apply a pid so ti ctx).2.patient_id = ctx.patient_id ∧
    (decide_and_apply a pid so ti ctx).2.patient_contexts = ctx.patient_contexts := by
  subst hpid
  refine ⟨?_, ?_, ?_⟩
  · rw [dda_decision]
    rcases ha with h | h <;> subst h <;>
      simp [transition, _activate_patient, hp, hsame]
  · rw [dda_patient_id]
    rcases ha with h | h <;> subst h <;>
      simp [transition, _activate_patient, hp, hsame]
  · rw [dda_patient_contexts]
    rcases ha with h | h <;> subst h <;>
      simp [transition, _activate_patient, hp, hsame]

/-- C3 witness: a concrete same-id turn under the `ACTIVATE_NEW` tag. -/
theorem c3_witness :
    (decide_and_apply .ACTIVATE_NEW (some "p1") (.ok "") ⟨⟨0, 0⟩, ⟨0, 0⟩⟩
        ⟨"conv", [], some "p1", [("p1", { patient_id := "p1" })]⟩).1 = Decision.UNCHANGED ∧
    (decide_and_apply .ACTIVATE_NEW (some "p1") (.ok "") ⟨⟨0, 0⟩, ⟨0, 0⟩⟩
        ⟨"conv", [], some "p1", [("p1", { patient_id := "p1" })]⟩).2.patient_id = some "p1" ∧
    (decide_and_apply .ACTIVATE_NEW (some "p1") (.ok "") ⟨⟨0, 0⟩, ⟨0, 0⟩⟩
        ⟨"conv", [], some "p1", [("p1", { patient_id := "p1" })]⟩).2.patient_contexts =
      [("p1", { patient_id := "p1" })] :=
  c3_same_id_unchanged .ACTIVATE_NEW (some "p1") (.ok "") ⟨⟨0, 0⟩, ⟨0, 0⟩⟩
    ⟨"conv", [], some "p1", [("p1", { patient_id := "p1" })]⟩ "p1"
    (Or.inl rfl) rfl (by decide) rfl

/-- C4: over any sequence of `decide_and_apply` turns the registry's key
list only grows at the end (never a removal, never a reorder), and a
`CLEAR` turn leaves the registry untouched while nulling the active
pointer. -/
theorem c4_registry_monotone (ctx : ChatContext) (ts : List TurnInput) :
    (∃ tail, (runTurns ctx ts).knownIds = ctx.knownIds ++ tail) ∧
    (∀ t ctx0, t.action = .CLEAR →
      (runTurn t ctx0).patient_contexts = ctx0.patient_contexts ∧
      (runTurn t ctx0).patient_id = none) := by
  constructor
  · induction ts generalizing ctx with
    | nil => exact ⟨[], by simp [runTurns]⟩
    | cons t ts ih =>
      obtain ⟨tail, htail⟩ := ih (runTurn t ctx)
      have hstep : ∃ δ, (runTurn t ctx).knownIds = ctx.knownIds ++ δ := by
        unfold runTurn ChatContext.knownIds
        rw [dda_patient_contexts]
        rcases transition_registry t.action t.pid ctx with h | ⟨p, _, h⟩
        · exact ⟨[], by simp [h, ChatContext.knownIds]⟩
        · exact ⟨[p], by simp [h, ChatContext.knownIds]⟩
      obtain ⟨δ, hδ⟩ := hstep
      exact ⟨δ ++ tail, by rw [runTurns, htail, hδ, List.append_assoc]⟩
  · intro t ctx0 ht
    constructor
    · unfold runTurn
      rw [dda_patient_contexts, ht]
      rfl
    · unfold runTurn
      rw [dda_patient_id, ht]
      rfl

/-- C7: one synchronizer run — removal (the `CLEAR` path) or removal plus
reinsertion at index 0 (`_ensure_system_message`) — preserves every
non-synthetic message in order, and re-running the synchronizer with
unchanged timing/digest/counts is a no-op (in fact on the whole context). -/
theorem c7_sync_preserves_nonsynthetic (ctx : ChatContext) (ti : TimingInfo)
    (su : Option String) (tc : Option TokenCounts) :
    ((_remove_system_message ctx).messages.filter (fun m => !isPatientContextMsg m) =
      ctx.messages.filter (fun m => !isPatientContextMsg m)) ∧
    ((_ensure_system_message ctx ti su tc).messages.filter (fun m => !isPatientContextMsg m) =
      ctx.messages.filter (fun m => !isPatientContextMsg m)) ∧
    _ensure_system_message (_ensure_system_message ctx ti su tc) ti su tc =
      _ensure_system_message ctx ti su tc := by
  refine ⟨filter_filter_self _ _, ?_, ?_⟩
  · by_cases htr : pyTruthyStr ctx.patient_id = true
    · obtain ⟨p, hcc, hp⟩ : ∃ p, ctx.patient_id = some p ∧ p ≠ "" := by
        cases hcc : ctx.patient_id with
        | none => rw [hcc] at htr; simp [pyTruthyStr] at htr
        | some p =>
          refine ⟨p, rfl, ?_⟩
          rw [hcc] at htr; simpa [pyTruthyStr] using htr
      rw [ensure_eq_truthy ctx ti su tc p hcc hp]
      simp only [List.filter_cons]
      rw [show (!isPatientContextMsg (recordMsg ctx.conversation_id p ctx.knownIds ti su tc)) =
          false by simp [isPatientContextMsg_recordMsg]]
      simp only [Bool.false_eq_true, if_false]
      exact filter_filter_self _ _
    · rw [ensure_eq_falsy ctx ti su tc (by simpa using htr)]
      exact filter_filter_self _ _
  · by_cases htr : pyTruthyStr ctx.patient_id = true
    · obtain ⟨p, hcc, hp⟩ : ∃ p, ctx.patient_id = some p ∧ p ≠ "" := by
        cases hcc : ctx.patient_id with
        | none => rw [hcc] at htr; simp [pyTruthyStr] at htr
        | some p =>
          refine ⟨p, rfl, ?_⟩
          rw [hcc] at htr; simpa [pyTruthyStr] using htr
      rw [ensure_eq_truthy ctx ti su tc p hcc hp]
      rw [ensure_eq_truthy
        { ctx with messages := recordMsg ctx.conversation_id p ctx.knownIds ti su tc ::
            ctx.messages.filter (fun m => !isPatientContextMsg m) } ti su tc p hcc hp]
      simp [ChatContext.knownIds, List.filter_cons, isPatientContextMsg_recordMsg,
        filter_filter_self]
    · have hfalse : pyTruthyStr ctx.patient_id = false := by simpa using htr
      rw [ensure_eq_falsy ctx ti su tc hfalse]
      rw [ensure_eq_falsy
        { ctx with messages := ctx.messages.filter (fun m => !isPatientContextMsg m) }
        ti su tc hfalse]
      simp [filter_filter_self]

/-- C10 (implicit invariant): if the active pointer is null or registered,
it is still null or registered after any single `decide_and_apply` step,
whatever the classifier returned. -/
theorem c10_active_pointer_registered (a : AnalyzerAction) (pid : Option String)
    (so : Except Unit String) (ti : TimingInfo) (ctx : ChatContext)
    (h : ctx.patient_id = none ∨ ∃ p, ctx.patient_id = some p ∧ p ∈ ctx.knownIds) :
    (decide_and_apply a pid so ti ctx).2.patient_id = none ∨
    ∃ p, (decide_and_apply a pid so ti ctx).2.patient_id = some p ∧
      p ∈ (decide_and_apply a pid so ti ctx).2.knownIds := by
  have hids : (decide_and_apply a pid so ti ctx).2.knownIds = (transition a pid ctx).2.knownIds := by
    unfold ChatContext.knownIds
    rw [dda_patient_contexts]
  rw [dda_patient_id, hids]
  cases a
  case NONE => exact h
  case UNCHANGED => exact h
  case CLEAR => left; rfl
  all_goals
    cases pid with
    | none => exact h
    | some p =>
      by_cases hp : p = ""
      · simpa [transition, hp] using h
      · rw [transition_activate _ (by first | exact Or.inl rfl | exact Or.inr rfl) p ctx hp]
        by_cases h1 : some p = ctx.patient_id
        · rw [activate_result_same p ctx hp h1]; exact h
        · by_cases h2 : p ∈ ctx.knownIds
          · rw [activate_result_known p ctx hp h1 h2]
            right
            exact ⟨p, rfl, by simpa [ChatContext.knownIds] using h2⟩
          · rw [activate_result_unknown p ctx hp h1 h2]
            right
            refine ⟨p, rfl, ?_⟩
            simp [ChatContext.knownIds]

/-- C5 (amended): the analyzer boundary is total and degrades to
`(NONE, null)` on every failure: a raised transport error, whitespace-only
response content, content that fails to decode as JSON, and an action tag
that is outside the closed five-tag set *after the code's trim-and-uppercase
normalization*. -/
theorem c5_analyze_degrades (user_text : String) :
    (PatientContextAnalyzer.analyze user_text .failure = (.NONE, none)) ∧
    (∀ raw, pyStrip raw = "" →
      PatientContextAnalyzer.analyze user_text (.response raw) = (.NONE, none)) ∧
    (∀ raw, jsonLoads (PatientContextAnalyzer.normalizedContent raw) = none →
      PatientContextAnalyzer.analyze user_text (.response raw) = (.NONE, none)) ∧
    (∀ raw kvs araw,
      jsonLoads (PatientContextAnalyzer.normalizedContent raw) = some (.obj kvs) →
      PatientContextAnalyzer.actionStrOfGet (objGet kvs "action") = some araw →
      PatientContextAnalyzer.actionOfString (pyUpper (pyStrip araw)) = none →
      PatientContextAnalyzer.analyze user_text (.response raw) = (.NONE, none)) := by
  by_cases hu : user_text = ""
  · refine ⟨by simp [PatientContextAnalyzer.analyze, hu], ?_, ?_, ?_⟩
    · intro raw _; simp [PatientContextAnalyzer.analyze, hu]
    · intro raw _; simp [PatientContextAnalyzer.analyze, hu]
    · intro raw kvs araw _ _ _; simp [PatientContextAnalyzer.analyze, hu]
  · refine ⟨by simp [PatientContextAnalyzer.analyze, hu], ?_, ?_, ?_⟩
    · intro raw hr
      simp [PatientContextAnalyzer.analyze, hu, hr]
    · intro raw hj
      by_cases hr : pyStrip raw = ""
      · simp [PatientContextAnalyzer.analyze, hu, hr]
      · simp [PatientContextAnalyzer.analyze, hu, hr, hj]
    · intro raw kvs araw hj ha hv
      by_cases hr : pyStrip raw = ""
      · simp [PatientContextAnalyzer.analyze, hu, hr]
      · simp [PatientContextAnalyzer.analyze, hu, hr, hj, ha, hv]

/-- C5 counterexample: a response whose action tag `"clear"` is *outside*
the closed five-tag set (the set is uppercase) is nevertheless accepted —
the code uppercases before validating — returning `(CLEAR, null)` rather
than the claimed `(NONE, null)`. -/
theorem c5_cex_lowercase_tag :
    PatientContextAnalyzer.analyze "switch to patient"
      (.response "\x7b\"action\":\"clear\"\x7d") = (.CLEAR, none) ∧
    ((.CLEAR, none) : AnalyzerAction × Option String) ≠ (.NONE, none) ∧
    "clear" ∉ (["NONE", "CLEAR", "ACTIVATE_NEW", "SWITCH_EXISTING", "UNCHANGED"] :
      List String) := by
  refine ⟨rfl, by simp, by decide⟩

/-- C6 (code bug): `analyze` forwards whatever `patient_id` the response
carries even for `CLEAR` (and `NONE`), contradicting its own docstring
"patient_id is only non-null for ACTIVATE_NEW | SWITCH_EXISTING |
UNCHANGED": a well-formed `CLEAR` response with a patient id yields
`(CLEAR, "patient_5")`. -/
theorem c6_bug_clear_passes_pid :
    PatientContextAnalyzer.analyze "who is this"
      (.response "\x7b\"action\":\"CLEAR\",\"patient_id\":\"patient_5\"\x7d") =
      (.CLEAR, some "patient_5") := rfl

/-- The second line of a `"\n"`-join of at least four lines is found by the
Python substring test on the joined result. -/
theorem strContains_pyJoin_header (base x y t1 : String) (ts : List String) :
    strContains (base ++ pyJoin "\n" (x :: y :: t1 :: ts)) y = true := by
  unfold strContains
  have e1 : (base ++ pyJoin "\n" (x :: y :: t1 :: ts)).data =
      (base.data ++ x.data ++ ('\n' :: [])) ++
        (y.data ++ ('\n' :: (pyJoin "\n" (t1 :: ts)).data)) := by
    show base.data ++ ((x.data ++ ['\n']) ++ ((y.data ++ ['\n']) ++
      (pyJoin "\n" (t1 :: ts)).data)) = _
    simp [List.append_assoc]
  rw [e1]
  exact hasSub_append _ _ _

/-- Whatever `pcCtxLines` returns opens with the two header lines. -/
theorem pcCtxLines_shape (kvs : List (String × Json)) (lines : List String)
    (h : AssistantBot.pcCtxLines kvs = some lines) :
    ∃ tail, lines = "\n\n---" :: "\n*PT_CTX:*" :: tail := by
  unfold AssistantBot.pcCtxLines at h
  cases hs : AssistantBot.sessionLine kvs with
  | none => rw [hs] at h; cases h
  | some session =>
    cases hm : AssistantBot.summaryLine kvs with
    | none => rw [hs, hm] at h; cases h
    | some summary =>
      rw [hs, hm] at h
      injection h with h1
      exact ⟨_, h1.symm⟩

/-- C9 (amended): for every reply and every context whose embedded record
body is absent or parses to a JSON *object*, the renderer's context-append
is idempotent: a reply that already carries a rendered block is returned
unchanged.  (For a record body that fails to parse, the raw fallback block
is appended again — see the counterexample.) -/
theorem c9_append_idempotent_on_parseable (base : String) (msgs : List ChatMessageContent)
    (h : AssistantBot._get_system_patient_context_json msgs = none ∨
      ∃ payload kvs, AssistantBot._get_system_patient_context_json msgs = some payload ∧
        jsonLoads payload = some (.obj kvs)) (r : String)
    (hr : AssistantBot._append_pc_ctx base msgs = some r) :
    AssistantBot._append_pc_ctx r msgs = some r := by
  by_cases hg : (strContains base "\nPC_CTX" || strContains base "\n*PT_CTX:*") = true
  · have hrb : r = base := by
      unfold AssistantBot._append_pc_ctx at hr
      rw [if_pos hg] at hr
      injection hr with h1
      exact h1.symm
    subst hrb
    unfold AssistantBot._append_pc_ctx
    rw [if_pos hg]
  · rcases h with hnone | ⟨payload, kvs, hpay, hparse⟩
    · have hrb : r = base := by
        unfold AssistantBot._append_pc_ctx at hr
        rw [if_neg hg, hnone] at hr
        injection hr with h1
        exact h1.symm
      subst hrb
      unfold AssistantBot._append_pc_ctx
      rw [if_neg hg, hnone]
    · unfold AssistantBot._append_pc_ctx at hr
      rw [if_neg hg] at hr
      simp only [hpay, hparse] at hr
      cases hl : AssistantBot.pcCtxLines kvs with
      | none => simp [hl] at hr
      | some lines =>
        simp only [hl] at hr
        by_cases hlen : lines.length > 2
        · rw [if_pos hlen] at hr
          injection hr with h1
          obtain ⟨tail, htail⟩ := pcCtxLines_shape kvs lines hl
          have htne : tail ≠ [] := by
            intro he
            rw [htail, he] at hlen
            simp at hlen
          obtain ⟨t1, ts, hts⟩ := List.exists_cons_of_ne_nil htne
          have hcont : strContains r "\n*PT_CTX:*" = true := by
            rw [← h1, htail, hts]
            exact strContains_pyJoin_header base "\n\n---" "\n*PT_CTX:*" t1 ts
          unfold AssistantBot._append_pc_ctx
          rw [if_pos (by rw [hcont]; simp)]
        · rw [if_neg hlen] at hr
          injection hr with h1
          subst h1
          unfold AssistantBot._append_pc_ctx
          rw [if_neg hg]
          simp only [hpay, hparse, hl]
          rw [if_neg hlen]

/-- C9 witness: a concrete context with a well-formed record; the second
application returns the first result unchanged. -/
theorem c9_witness :
    AssistantBot._append_pc_ctx "hi\n\n---\n\n*PT_CTX:*\n- **Patient ID:** `p1`"
      [⟨.system, .text "PATIENT_CONTEXT_JSON: \x7b\"patient_id\":\"p1\"\x7d"⟩] =
      some "hi\n\n---\n\n*PT_CTX:*\n- **Patient ID:** `p1`" :=
  c9_append_idempotent_on_parseable "hi"
    [⟨.system, .text "PATIENT_CONTEXT_JSON: \x7b\"patient_id\":\"p1\"\x7d"⟩]
    (Or.inr ⟨"\x7b\"patient_id\":\"p1\"\x7d", [("patient_id", .str "p1")], rfl, rfl⟩)
    "hi\n\n---\n\n*PT_CTX:*\n- **Patient ID:** `p1`" rfl

/-- C9 counterexample: with a record body that is not parseable as JSON the
raw fallback block lacks the `PC_CTX`/`*PT_CTX:*` guards, so a second
invocation appends the block again — double invocation is not idempotent
there. -/
theorem c9_cex_malformed_double_append :
    AssistantBot._append_pc_ctx "reply"
      [⟨.system, .text "PATIENT_CONTEXT_JSON: notjson"⟩] =
      some "reply\n\n---\n*PT_CTX (raw):* `notjson`" ∧
    AssistantBot._append_pc_ctx "reply\n\n---\n*PT_CTX (raw):* `notjson`"
      [⟨.system, .text "PATIENT_CONTEXT_JSON: notjson"⟩] =
      some "reply\n\n---\n*PT_CTX (raw):* `notjson`\n\n---\n*PT_CTX (raw):* `notjson`" ∧
    ("reply\n\n---\n*PT_CTX (raw):* `notjson`\n\n---\n*PT_CTX (raw):* `notjson`" : String) ≠
      "reply\n\n---\n*PT_CTX (raw):* `notjson`" := by
  refine ⟨rfl, rfl, by decide⟩

/-- C10 witness: the invariant applied at a concrete fresh context. -/
theorem c10_witness :
    (decide_and_apply .ACTIVATE_NEW (some "p1") (.ok "") ⟨⟨0, 0⟩, ⟨0, 0⟩⟩
        ⟨"conv", [], none, []⟩).2.patient_id = none ∨
    ∃ p, (decide_and_apply .ACTIVATE_NEW (some "p1") (.ok "") ⟨⟨0, 0⟩, ⟨0, 0⟩⟩
        ⟨"conv", [], none, []⟩).2.patient_id = some p ∧
      p ∈ (decide_and_apply .ACTIVATE_NEW (some "p1") (.ok "") ⟨⟨0, 0⟩, ⟨0, 0⟩⟩
        ⟨"conv", [], none, []⟩).2.knownIds :=
  c10_active_pointer_registered .ACTIVATE_NEW (some "p1") (.ok "") ⟨⟨0, 0⟩, ⟨0, 0⟩⟩
    ⟨"conv", [], none, []⟩ (Or.inl rfl)

/-! ## The record codec round trip: digits -/

theorem char_toNat_ofNat_valid (n : Nat) (h : n.isValidChar) :
    (Char.ofNat n).toNat = n := by
  unfold Char.ofNat
  rw [dif_pos h]
  rfl

theorem foldl_digitsToNat (ds : List Char) (acc : Nat) :
    ds.foldl (fun a c => a * 10 + (c.toNat - 48)) acc =
      acc * 10 ^ ds.length + digitsToNat ds := by
  induction ds generalizing acc with
  | nil => simp [digitsToNat]
  | cons c t ih =>
    show t.foldl _ (acc * 10 + (c.toNat - 48)) = _
    rw [ih]
    have h2 : digitsToNat (c :: t) = (c.toNat - 48) * 10 ^ t.length + digitsToNat t := by
      show t.foldl _ (0 * 10 + (c.toNat - 48)) = _
      rw [ih]
      ring_nf
    rw [h2]
    simp only [List.length_cons, pow_succ]
    ring

theorem digitsToNat_append (a b : List Char) :
    digitsToNat (a ++ b) = digitsToNat a * 10 ^ b.length + digitsToNat b := by
  show (a ++ b).foldl _ 0 = _
  rw [List.foldl_append]
  exact foldl_digitsToNat b _

theorem digitsToNat_replicate_zero (k : Nat) (b : List Char) :
    digitsToNat (List.replicate k '0' ++ b) = digitsToNat b := by
  induction k with
  | zero => rfl
  | succ n ih =>
    show digitsToNat ('0' :: (List.replicate n '0' ++ b)) = _
    show (List.replicate n '0' ++ b).foldl _ (0 * 10 + ('0'.toNat - 48)) = _
    have : (0 * 10 + ('0'.toNat - 48)) = 0 := by decide
    rw [this]
    exact ih

theorem natDigitsAux_spec : ∀ fuel n, n ≤ fuel →
    digitsToNat (natDigitsAux fuel n) = n ∧
      ∀ c ∈ natDigitsAux fuel n, isDigitChar c = true := by
  intro fuel
  induction fuel with
  | zero =>
    intro n hn
    have : n = 0 := by omega
    subst this
    exact ⟨rfl, by simp [natDigitsAux]⟩
  | succ f ih =>
    intro n hn
    match n with
    | 0 => exact ⟨rfl, by simp [natDigitsAux]⟩
    | m + 1 =>
      have hdiv : (m + 1) / 10 ≤ f := by
        have := Nat.div_lt_self (Nat.succ_pos m) (by norm_num : (1 : Nat) < 10)
        omega
      obtain ⟨ihv, ihd⟩ := ih ((m + 1) / 10) hdiv
      have hlt : (m + 1) % 10 < 10 := Nat.mod_lt _ (by norm_num)
      have hnat : (Char.ofNat (48 + (m + 1) % 10)).toNat = 48 + (m + 1) % 10 :=
        char_toNat_ofNat_valid _ (Or.inl (by omega))
      constructor
      · show digitsToNat (natDigitsAux f ((m + 1) / 10) ++ [Char.ofNat (48 + (m + 1) % 10)]) =
          m + 1
        rw [digitsToNat_append, ihv]
        have hone : digitsToNat [Char.ofNat (48 + (m + 1) % 10)] = (m + 1) % 10 := by
          show 0 * 10 + ((Char.ofNat (48 + (m + 1) % 10)).toNat - 48) = _
          rw [hnat]
          omega
        rw [hone]
        have := Nat.div_add_mod (m + 1) 10
        simp only [List.length_cons, List.length_nil, pow_one]
        omega
      · intro c hc
        rcases List.mem_append.mp hc with h | h
        · exact ihd c h
        · simp only [List.mem_singleton] at h
          subst h
          simp only [isDigitChar, hnat]
          have : 48 ≤ 48 + (m + 1) % 10 ∧ 48 + (m + 1) % 10 ≤ 57 := by omega
          simp [this.1, this.2]

theorem natDigits_spec (n : Nat) :
    digitsToNat (natDigits n) = n ∧
      (∀ c ∈ natDigits n, isDigitChar c = true) ∧ natDigits n ≠ [] := by
  unfold natDigits
  by_cases h : n = 0
  · subst h
    refine ⟨by decide, by decide, by decide⟩
  · rw [if_neg h]
    obtain ⟨hv, hd⟩ := natDigitsAux_spec n n le_rfl
    refine ⟨hv, hd, ?_⟩
    obtain ⟨m, rfl⟩ : ∃ m, n = m + 1 := ⟨n - 1, by omega⟩
    show natDigitsAux (m + 1) (m + 1) ≠ []
    show natDigitsAux m ((m + 1) / 10) ++ [Char.ofNat (48 + (m + 1) % 10)] ≠ []
    simp

/-! ## The record codec round trip: numbers -/

theorem takeWhile_all_append {p : Char → Bool} (ds rest : List Char)
    (hall : ∀ c ∈ ds, p c = true)
    (hrest : ∀ c, rest.head? = some c → p c = false) :
    (ds ++ rest).takeWhile p = ds ∧ (ds ++ rest).dropWhile p = rest := by
  induction ds with
  | nil =>
    cases rest with
    | nil => simp
    | cons c t =>
      have hc := hrest c rfl
      simp [List.takeWhile_cons, List.dropWhile_cons, hc]
  | cons d t ih =>
    have hd : p d = true := hall d (by simp)
    have ih2 := ih (fun c hc => hall c (by simp [hc]))
    simp [List.takeWhile_cons, List.dropWhile_cons, hd, ih2.1, ih2.2]

theorem parseNatPart_digits (ds rest : List Char) (hne : ds ≠ [])
    (hall : ∀ c ∈ ds, isDigitChar c = true)
    (hrest : ∀ c, rest.head? = some c → isDigitChar c = false) :
    parseNatPart (ds ++ rest) = some (digitsToNat ds, ds.length, rest) := by
  obtain ⟨ht, hd⟩ := takeWhile_all_append ds rest hall hrest
  unfold parseNatPart
  rw [ht, hd]
  simp [hne]

/-- `rest` opens with neither a digit nor a point (in the payload: `,`, `}`
or `]` follows every number). -/
theorem parseNumAbs_int (n : Nat) (rest : List Char) (hrest : numBoundary rest) :
    parseNumAbs (natDigits n ++ rest) = some (n, 0, rest) := by
  obtain ⟨hv, hall, hne⟩ := natDigits_spec n
  have hp := parseNatPart_digits (natDigits n) rest hne hall (fun c hc => (hrest c hc).1)
  simp only [parseNumAbs, hp, hv]
  cases rest with
  | nil => rfl
  | cons c t =>
    have hdot := (hrest c rfl).2
    split
    · next heq => injection heq with h1 _; exact absurd h1 hdot
    · rfl

theorem parseNumAbs_frac (m e : Nat) (rest : List Char) (he : e ≠ 0)
    (hrest : numBoundary rest) :
    parseNumAbs ((natDigitsPadded m e).take ((natDigitsPadded m e).length - e) ++
      '.' :: ((natDigitsPadded m e).drop ((natDigitsPadded m e).length - e) ++ rest)) =
      some (m, e, rest) := by
  obtain ⟨hv, hall, hne⟩ := natDigits_spec m
  have hpadall : ∀ c ∈ natDigitsPadded m e, isDigitChar c = true := by
    intro c hc
    unfold natDigitsPadded at hc
    rcases List.mem_append.mp hc with h | h
    · have := List.eq_of_mem_replicate h
      subst this
      decide
    · exact hall c h
  have hpadval : digitsToNat (natDigitsPadded m e) = m := by
    unfold natDigitsPadded
    rw [digitsToNat_replicate_zero]
    exact hv
  have hlen : e + 1 ≤ (natDigitsPadded m e).length := by
    unfold natDigitsPadded
    rw [List.length_append, List.length_replicate]
    omega
  set P := natDigitsPadded m e with hP
  set L := P.length with hL
  have hsplit : P.take (L - e) ++ P.drop (L - e) = P := List.take_append_drop _ _
  have htlen : (P.take (L - e)).length = L - e := by
    rw [List.length_take]
    omega
  have hdlen : (P.drop (L - e)).length = e := by
    rw [List.length_drop]
    omega
  have htne : P.take (L - e) ≠ [] := by
    intro h
    have := congrArg List.length h
    rw [htlen] at this
    simp at this
    omega
  have hdne : P.drop (L - e) ≠ [] := by
    intro h
    have := congrArg List.length h
    rw [hdlen] at this
    simp at this
    omega
  have htall : ∀ c ∈ P.take (L - e), isDigitChar c = true :=
    fun c hc => hpadall c (List.mem_of_mem_take hc)
  have hdall : ∀ c ∈ P.drop (L - e), isDigitChar c = true :=
    fun c hc => hpadall c (List.mem_of_mem_drop hc)
  have hpoint : ∀ c, ('.' :: (P.drop (L - e) ++ rest)).head? = some c →
      isDigitChar c = false := by
    intro c hc
    have hcc : c = '.' := (Option.some.inj hc).symm
    subst hcc
    decide
  have hp1 := parseNatPart_digits (P.take (L - e)) ('.' :: (P.drop (L - e) ++ rest))
    htne htall hpoint
  have hp2 := parseNatPart_digits (P.drop (L - e)) rest hdne hdall
    (fun c hc => (hrest c hc).1)
  simp only [parseNumAbs, hp1, hp2]
  have hval : digitsToNat (P.take (L - e)) * 10 ^ (P.drop (L - e)).length +
      digitsToNat (P.drop (L - e)) = m := by
    rw [← digitsToNat_append, hsplit, hpadval]
  rw [hdlen] at hval
  rw [hdlen, hval]

/-- A nonempty all-digit run is not opened by `-`: step the `parseJsonNum`
sign match past it. -/
theorem parseJsonNum_no_sign (ds rest : List Char) (hne : ds ≠ [])
    (hall : ∀ c ∈ ds, isDigitChar c = true) :
    parseJsonNum (ds ++ rest) = (parseNumAbs (ds ++ rest)).map
      (fun r => (.num (r.1 : Int) r.2.1, r.2.2)) := by
  obtain ⟨h0, t0, heq⟩ := List.exists_cons_of_ne_nil hne
  have hd : isDigitChar h0 = true := hall h0 (by rw [heq]; simp)
  have hne2 : h0 ≠ '-' := by
    intro hh
    subst hh
    revert hd
    decide
  rw [heq]
  show parseJsonNum (h0 :: (t0 ++ rest)) = _
  simp only [parseJsonNum]
  split
  · next heq2 => injection heq2 with h1 _; exact absurd h1 hne2
  · rfl

theorem parseJsonNum_dumpsNum (d : PyDecimal) (rest : List Char)
    (hrest : numBoundary rest) :
    parseJsonNum (dumpsNum d ++ rest) = some (.num d.mant d.frac, rest) := by
  obtain ⟨m, e⟩ := d
  by_cases hf : e = 0
  · subst hf
    show parseJsonNum (intDigits m ++ rest) = _
    by_cases hm : m < 0
    · rw [intDigits, if_pos hm]
      show parseJsonNum ('-' :: (natDigits m.natAbs ++ rest)) = _
      simp only [parseJsonNum]
      rw [parseNumAbs_int m.natAbs rest hrest]
      have h2 : -((m.natAbs : Int)) = m := by omega
      simp only [Option.map_some', h2]
    · rw [intDigits, if_neg hm]
      obtain ⟨hv, hall, hne⟩ := natDigits_spec m.natAbs
      rw [parseJsonNum_no_sign _ _ hne hall, parseNumAbs_int m.natAbs rest hrest]
      have h2 : ((m.natAbs : Int)) = m := by omega
      simp only [Option.map_some', h2]
  · show parseJsonNum (dumpsNum ⟨m, e⟩ ++ rest) = _
    rw [dumpsNum]
    simp only [if_neg hf]
    set P := natDigitsPadded m.natAbs e with hP
    set L := P.length with hL
    by_cases hm : m < 0
    · simp only [if_pos hm, List.singleton_append, List.append_assoc, List.cons_append,
        List.nil_append]
      simp only [parseJsonNum]
      rw [parseNumAbs_frac m.natAbs e rest hf hrest]
      have h2 : -((m.natAbs : Int)) = m := by omega
      simp only [Option.map_some', h2]
    · simp only [if_neg hm]
      have hlen : e + 1 ≤ L := by
        rw [hL, hP]
        unfold natDigitsPadded
        rw [List.length_append, List.length_replicate]
        omega
      have htlen : (P.take (L - e)).length = L - e := by
        rw [List.length_take]
        omega
      have htne : P.take (L - e) ≠ [] := by
        intro h
        have := congrArg List.length h
        rw [htlen] at this
        simp at this
        omega
      have hpadall : ∀ c ∈ P, isDigitChar c = true := by
        intro c hc
        rw [hP] at hc
        unfold natDigitsPadded at hc
        rcases List.mem_append.mp hc with h | h
        · have := List.eq_of_mem_replicate h
          subst this
          decide
        · exact (natDigits_spec m.natAbs).2.1 c h
      have htall : ∀ c ∈ P.take (L - e), isDigitChar c = true :=
        fun c hc => hpadall c (List.mem_of_mem_take hc)
      simp only [List.nil_append, List.append_assoc, List.cons_append]
      rw [parseJsonNum_no_sign (P.take (L - e)) ('.' :: (P.drop (L - e) ++ rest)) htne htall]
      rw [parseNumAbs_frac m.natAbs e rest hf hrest]
      have h2 : ((m.natAbs : Int)) = m := by omega
      simp only [Option.map_some', h2]

/-! ## The record codec round trip: strings -/

theorem hexVal_hexDigitChar : ∀ x, x < 16 → hexVal (hexDigitChar x) = some x := by
  decide

theorem char_valid_nat (c : Char) :
    c.toNat < 55296 ∨ (57343 < c.toNat ∧ c.toNat < 1114112) := by
  have h := c.valid
  rcases h with h | ⟨h1, h2⟩
  · left
    exact h
  · right
    exact ⟨h1, h2⟩

theorem hex4Val_hex4 (v : Nat) (hv : v < 65536) :
    hex4Val (hexDigitChar (v / 4096 % 16)) (hexDigitChar (v / 256 % 16))
      (hexDigitChar (v / 16 % 16)) (hexDigitChar (v % 16)) = some v := by
  unfold hex4Val
  rw [hexVal_hexDigitChar _ (Nat.mod_lt _ (by norm_num)),
    hexVal_hexDigitChar _ (Nat.mod_lt _ (by norm_num)),
    hexVal_hexDigitChar _ (Nat.mod_lt _ (by norm_num)),
    hexVal_hexDigitChar _ (Nat.mod_lt _ (by norm_num))]
  exact congrArg some (by omega)

/-- Step the parser over the closing quote. -/
theorem psb_quote (f : Nat) (cs : List Char) :
    parseStringBody (f + 1) ('"' :: cs) = some ([], cs) := rfl

/-- Step the parser over one simple escape. -/
theorem psb_simple (f : Nat) (esc ch : Char) (hs : simpleEscape esc = some ch)
    (l : List Char) :
    parseStringBody (f + 1) ('\\' :: esc :: l) =
      (parseStringBody f l).map (fun r => (ch :: r.1, r.2)) := by
  unfold simpleEscape at hs
  split_ifs at hs <;> first
    | exact Option.noConfusion hs
    | (injection hs with hch; subst hch; subst_vars; rfl)

/-- Step the parser over one unescaped character. -/
theorem psb_plain (f : Nat) (c : Char) (h1 : c ≠ '"') (h2 : c ≠ '\\') (l : List Char) :
    parseStringBody (f + 1) (c :: l) =
      (parseStringBody f l).map (fun r => (c :: r.1, r.2)) := by
  conv_lhs => rw [parseStringBody.eq_def]
  split
  next heq => omega
  next n heq heq2 => exact absurd heq2 (by simp)
  next f2 c0 cs heq heq2 =>
    injection heq2 with e1 e2
    subst e1
    subst e2
    have hf : f2 = f := by omega
    subst hf
    rw [if_neg h1, if_neg h2]

/-- Step the parser over one `\uXXXX` escape of a non-surrogate BMP value. -/
theorem psb_u (f : Nat) (a b c d : Char) (v : Nat) (l : List Char)
    (hx : hex4Val a b c d = some v)
    (hns : ¬(55296 ≤ v ∧ v ≤ 56319)) (hok : v < 55296 ∨ 57344 ≤ v) :
    parseStringBody (f + 1) ('\\' :: 'u' :: a :: b :: c :: d :: l) =
      (parseStringBody f l).map (fun r => (Char.ofNat v :: r.1, r.2)) := by
  conv_lhs => rw [parseStringBody.eq_def]
  split
  next heq => omega
  next n heq heq2 => exact absurd heq2 (by simp)
  next f2 c0 cs heq heq2 =>
    injection heq2 with e1 e2
    subst e1
    subst e2
    have hf : f2 = f := by omega
    subst hf
    simp only [hx, hns, hok, if_true, if_false]
    rw [if_neg (by decide : ¬('\\' : Char) = '"')]

/-- Step the parser over a surrogate pair encoding an astral value. -/
theorem psb_pair (f : Nat) (a b c d a2 b2 c2 d2 : Char) (v w : Nat) (l : List Char)
    (hx : hex4Val a b c d = some v) (hx2 : hex4Val a2 b2 c2 d2 = some w)
    (hsur : 55296 ≤ v ∧ v ≤ 56319) (hlow : 56320 ≤ w ∧ w ≤ 57343) :
    parseStringBody (f + 1)
      ('\\' :: 'u' :: a :: b :: c :: d :: '\\' :: 'u' :: a2 :: b2 :: c2 :: d2 :: l) =
      (parseStringBody f l).map
        (fun r => (Char.ofNat (65536 + (v - 55296) * 1024 + (w - 56320)) :: r.1, r.2)) := by
  conv_lhs => rw [parseStringBody.eq_def]
  split
  next heq => omega
  next n heq heq2 => exact absurd heq2 (by simp)
  next f2 c0 cs heq heq2 =>
    injection heq2 with e1 e2
    subst e1
    subst e2
    have hf : f2 = f := by omega
    subst hf
    simp only [hx, hx2, hsur, hlow, if_true, if_false, and_self]
    rw [if_neg (by decide : ¬('\\' : Char) = '"')]

/-- Escaping never shrinks a string. -/
theorem escapeList_length_ge (l : List Char) : l.length ≤ (escapeList l).length := by
  induction l with
  | nil => simp [escapeList]
  | cons c t ih =>
    have h1 : 1 ≤ (escapeChar c).length := by
      unfold escapeChar
      split_ifs <;> simp [hex4]
    have hstep : escapeList (c :: t) = escapeChar c ++ escapeList t := by
      simp [escapeList]
    rw [hstep]
    simp only [List.length_cons, List.length_append]
    omega

/-- The string round trip: parsing the escaped characters recovers them
exactly, and consumes exactly up to the closing quote. -/
theorem psb_escapeList (s : List Char) : ∀ (f : Nat) (rest : List Char),
    parseStringBody (f + s.length + 1) (escapeList s ++ ('"' :: rest)) = some (s, rest) := by
  induction s with
  | nil =>
    intro f rest
    show parseStringBody (f + 0 + 1) ('"' :: rest) = some ([], rest)
    exact psb_quote _ _
  | cons c t ih =>
    intro f rest
    have hstep : escapeList (c :: t) ++ ('"' :: rest) =
        escapeChar c ++ (escapeList t ++ ('"' :: rest)) := by
      simp [escapeList, List.append_assoc]
    rw [hstep]
    have hfuel : f + (c :: t).length + 1 = (f + t.length + 1) + 1 := by
      simp only [List.length_cons]
      omega
    rw [hfuel]
    by_cases h1 : c = '"'
    · subst h1
      rw [show escapeChar '"' = ['\\', '"'] from by decide]
      rw [show (['\\', '"'] : List Char) ++ (escapeList t ++ ('"' :: rest)) =
        '\\' :: '"' :: (escapeList t ++ ('"' :: rest)) from rfl]
      rw [psb_simple _ '"' '"' (by decide) _, ih f rest]
      rfl
    · by_cases h2 : c = '\\'
      · subst h2
        rw [show escapeChar '\\' = ['\\', '\\'] from by decide]
        rw [show (['\\', '\\'] : List Char) ++ (escapeList t ++ ('"' :: rest)) =
          '\\' :: '\\' :: (escapeList t ++ ('"' :: rest)) from rfl]
        rw [psb_simple _ '\\' '\\' (by decide) _, ih f rest]
        rfl
      · by_cases h3 : c = '\n'
        · subst h3
          rw [show escapeChar '\n' = ['\\', 'n'] from by decide]
          rw [show (['\\', 'n'] : List Char) ++ (escapeList t ++ ('"' :: rest)) =
            '\\' :: 'n' :: (escapeList t ++ ('"' :: rest)) from rfl]
          rw [psb_simple _ 'n' '\n' (by decide) _, ih f rest]
          rfl
        · by_cases h4 : c = '\t'
          · subst h4
            rw [show escapeChar '\t' = ['\\', 't'] from by decide]
            rw [show (['\\', 't'] : List Char) ++ (escapeList t ++ ('"' :: rest)) =
              '\\' :: 't' :: (escapeList t ++ ('"' :: rest)) from rfl]
            rw [psb_simple _ 't' '\t' (by decide) _, ih f rest]
            rfl
          · by_cases h5 : c = '\r'
            · subst h5
              rw [show escapeChar '\r' = ['\\', 'r'] from by decide]
              rw [show (['\\', 'r'] : List Char) ++ (escapeList t ++ ('"' :: rest)) =
                '\\' :: 'r' :: (escapeList t ++ ('"' :: rest)) from rfl]
              rw [psb_simple _ 'r' '\r' (by decide) _, ih f rest]
              rfl
            · by_cases h6 : c = Char.ofNat 8
              · subst h6
                rw [show escapeChar (Char.ofNat 8) = ['\\', 'b'] from by decide]
                rw [show (['\\', 'b'] : List Char) ++ (escapeList t ++ ('"' :: rest)) =
                  '\\' :: 'b' :: (escapeList t ++ ('"' :: rest)) from rfl]
                rw [psb_simple _ 'b' (Char.ofNat 8) (by decide) _, ih f rest]
                rfl
              · by_cases h7 : c = Char.ofNat 12
                · subst h7
                  rw [show escapeChar (Char.ofNat 12) = ['\\', 'f'] from by decide]
                  rw [show (['\\', 'f'] : List Char) ++ (escapeList t ++ ('"' :: rest)) =
                    '\\' :: 'f' :: (escapeList t ++ ('"' :: rest)) from rfl]
                  rw [psb_simple _ 'f' (Char.ofNat 12) (by decide) _, ih f rest]
                  rfl
                · by_cases h8 : 32 ≤ c.toNat ∧ c.toNat ≤ 126
                  · have he : escapeChar c = [c] := by
                      unfold escapeChar
                      rw [if_neg h1, if_neg h2, if_neg h3, if_neg h4, if_neg h5, if_neg h6,
                        if_neg h7, if_pos h8]
                    rw [he]
                    rw [show ([c] : List Char) ++ (escapeList t ++ ('"' :: rest)) =
                      c :: (escapeList t ++ ('"' :: rest)) from rfl]
                    rw [psb_plain _ c h1 h2 _, ih f rest]
                    rfl
                  · have hval := char_valid_nat c
                    by_cases h9 : c.toNat < 65536
                    · have he : escapeChar c = '\\' :: 'u' :: hex4 c.toNat := by
                        unfold escapeChar
                        rw [if_neg h1, if_neg h2, if_neg h3, if_neg h4, if_neg h5, if_neg h6,
                          if_neg h7, if_neg h8, if_pos h9]
                      rw [he]
                      show parseStringBody ((f + t.length + 1) + 1)
                        ('\\' :: 'u' :: hexDigitChar (c.toNat / 4096 % 16) ::
                          hexDigitChar (c.toNat / 256 % 16) :: hexDigitChar (c.toNat / 16 % 16) ::
                          hexDigitChar (c.toNat % 16) :: (escapeList t ++ ('"' :: rest))) = _
                      rw [psb_u _ _ _ _ _ c.toNat _ (hex4Val_hex4 c.toNat h9)
                        (by omega) (by omega)]
                      rw [ih f rest]
                      simp only [Option.map_some', Char.ofNat_toNat]
                    · have h9' : 65536 ≤ c.toNat := by omega
                      have he : escapeChar c =
                          '\\' :: 'u' :: hex4 (55296 + (c.toNat - 65536) / 1024) ++
                            '\\' :: 'u' :: hex4 (56320 + (c.toNat - 65536) % 1024) := by
                        unfold escapeChar
                        rw [if_neg h1, if_neg h2, if_neg h3, if_neg h4, if_neg h5, if_neg h6,
                          if_neg h7, if_neg h8, if_neg h9]
                      rw [he]
                      have hdivlt : (c.toNat - 65536) / 1024 < 1024 := by omega
                      have hmodlt : (c.toNat - 65536) % 1024 < 1024 :=
                        Nat.mod_lt _ (by norm_num)
                      show parseStringBody ((f + t.length + 1) + 1)
                        ('\\' :: 'u' ::
                          hexDigitChar ((55296 + (c.toNat - 65536) / 1024) / 4096 % 16) ::
                          hexDigitChar ((55296 + (c.toNat - 65536) / 1024) / 256 % 16) ::
                          hexDigitChar ((55296 + (c.toNat - 65536) / 1024) / 16 % 16) ::
                          hexDigitChar ((55296 + (c.toNat - 65536) / 1024) % 16) ::
                          '\\' :: 'u' ::
                          hexDigitChar ((56320 + (c.toNat - 65536) % 1024) / 4096 % 16) ::
                          hexDigitChar ((56320 + (c.toNat - 65536) % 1024) / 256 % 16) ::
                          hexDigitChar ((56320 + (c.toNat - 65536) % 1024) / 16 % 16) ::
                          hexDigitChar ((56320 + (c.toNat - 65536) % 1024) % 16) ::
                          (escapeList t ++ ('"' :: rest))) = _
                      rw [psb_pair _ _ _ _ _ _ _ _ _
                        (55296 + (c.toNat - 65536) / 1024) (56320 + (c.toNat - 65536) % 1024) _
                        (hex4Val_hex4 _ (by omega)) (hex4Val_hex4 _ (by omega))
                        (by omega) (by omega)]
                      rw [ih f rest]
                      have hch : 65536 + ((55296 + (c.toNat - 65536) / 1024) - 55296) * 1024 +
                          ((56320 + (c.toNat - 65536) % 1024) - 56320) = c.toNat := by
                        have := Nat.div_add_mod (c.toNat - 65536) 1024
                        omega
                      simp only [Option.map_some', hch, Char.ofNat_toNat]

/-! ### Composing the parser over the encoder's output -/

theorem skipWs_cons (c : Char) (l : List Char) (h : isJsonWs c = false) :
    skipWs (c :: l) = c :: l := by
  simp [skipWs, List.dropWhile_cons, h]

/-- `parseStringBody` with the fuel `parseVal`/`parseMembers` hand it
(`input length + 1`) decodes an escaped string back to its characters. -/
theorem psb_full (s : String) (rest : List Char) :
    parseStringBody ((escapeList s.data ++ ('"' :: rest)).length + 1)
      (escapeList s.data ++ ('"' :: rest)) = some (s.data, rest) := by
  have h := escapeList_length_ge s.data
  rw [show (escapeList s.data ++ ('"' :: rest)).length + 1
      = ((escapeList s.data ++ ('"' :: rest)).length - s.data.length) + s.data.length + 1 from by
    simp only [List.length_append, List.length_cons]
    omega]
  exact psb_escapeList s.data _ rest

/-- Parsing an encoded string value. -/
theorem parseVal_dumpsStr (s : String) (f : Nat) (rest : List Char) :
    parseVal (f + 1) (dumpsStr s ++ rest) = some (.str s, rest) := by
  have hd : dumpsStr s ++ rest = '"' :: (escapeList s.data ++ ('"' :: rest)) := by
    simp [dumpsStr]
  rw [hd]
  simp only [parseVal]
  rw [skipWs_cons _ _ (by decide)]
  simp only [psb_full]
  simp

/-- A decimal digit is not JSON whitespace and opens none of the
non-number branches of `parseVal`. -/
theorem digit_not_special (c : Char) (h : isDigitChar c = true) :
    isJsonWs c = false ∧ ¬c = '{' ∧ ¬c = '[' ∧ ¬c = '"' ∧ ¬c = 'n' ∧ ¬c = 't' ∧ ¬c = 'f' := by
  have hb : 48 ≤ c.toNat ∧ c.toNat ≤ 57 := by
    simpa [isDigitChar, Bool.and_eq_true, decide_eq_true_eq] using h
  refine ⟨?_, fun heq => by rw [heq] at hb; revert hb; decide,
    fun heq => by rw [heq] at hb; revert hb; decide,
    fun heq => by rw [heq] at hb; revert hb; decide,
    fun heq => by rw [heq] at hb; revert hb; decide,
    fun heq => by rw [heq] at hb; revert hb; decide,
    fun heq => by rw [heq] at hb; revert hb; decide⟩
  by_contra hw
  have hw' : isJsonWs c = true := by
    revert hw
    cases isJsonWs c <;> simp
  simp only [isJsonWs, Bool.or_eq_true, beq_iff_eq] at hw'
  rcases hw' with ((h1 | h1) | h1) | h1 <;> (rw [h1] at hb; revert hb; decide)

/-- The first character of an encoded number is a sign or a digit. -/
theorem dumpsNum_head (d : PyDecimal) :
    ∃ c cs, dumpsNum d = c :: cs ∧ (c = '-' ∨ isDigitChar c = true) := by
  obtain ⟨m, e⟩ := d
  by_cases hf : e = 0
  · subst hf
    show ∃ c cs, intDigits m = c :: cs ∧ _
    obtain ⟨hv, hall, hne⟩ := natDigits_spec m.natAbs
    by_cases hm : m < 0
    · rw [intDigits, if_pos hm]
      exact ⟨'-', natDigits m.natAbs, rfl, Or.inl rfl⟩
    · rw [intDigits, if_neg hm]
      obtain ⟨h0, t0, heq⟩ := List.exists_cons_of_ne_nil hne
      exact ⟨h0, t0, heq, Or.inr (hall h0 (by rw [heq]; simp))⟩
  · show ∃ c cs, dumpsNum ⟨m, e⟩ = c :: cs ∧ _
    rw [dumpsNum]
    simp only [if_neg hf]
    set P := natDigitsPadded m.natAbs e with hP
    set L := P.length with hL
    have hlen : e + 1 ≤ L := by
      rw [hL, hP]
      unfold natDigitsPadded
      rw [List.length_append, List.length_replicate]
      omega
    have hpadall : ∀ c ∈ P, isDigitChar c = true := by
      intro c hc
      rw [hP] at hc
      unfold natDigitsPadded at hc
      rcases List.mem_append.mp hc with h | h
      · have := List.eq_of_mem_replicate h
        subst this
        decide
      · exact (natDigits_spec m.natAbs).2.1 c h
    have hne : P ≠ [] := by
      intro h
      rw [h] at hL
      simp at hL
      omega
    obtain ⟨p0, pt, heqp⟩ := List.exists_cons_of_ne_nil hne
    have hd0 : isDigitChar p0 = true := hpadall p0 (by rw [heqp]; simp)
    by_cases hm : m < 0
    · simp only [if_pos hm, List.singleton_append, List.cons_append]
      exact ⟨'-', _, rfl, Or.inl rfl⟩
    · simp only [if_neg hm, List.nil_append]
      have hk : ∃ k, L - e = k + 1 := ⟨L - e - 1, by omega⟩
      obtain ⟨k, hk⟩ := hk
      rw [heqp, hk, List.take_succ_cons, List.cons_append]
      exact ⟨p0, _, rfl, Or.inr hd0⟩

/-- Parsing an encoded number value (`timing_sec` entries). -/
theorem parseVal_dumpsNum (d : PyDecimal) (f : Nat) (rest : List Char)
    (hrest : numBoundary rest) :
    parseVal (f + 1) (dumpsNum d ++ rest) = some (.num d.mant d.frac, rest) := by
  obtain ⟨c, cs, hd, hc⟩ := dumpsNum_head d
  have hspec : isJsonWs c = false ∧ ¬c = '{' ∧ ¬c = '[' ∧ ¬c = '"' ∧ ¬c = 'n' ∧
      ¬c = 't' ∧ ¬c = 'f' := by
    rcases hc with h | h
    · subst h
      exact ⟨by decide, by decide, by decide, by decide, by decide, by decide, by decide⟩
    · exact digit_not_special c h
  obtain ⟨hnws, h1, h2, h3, h4, h5, h6⟩ := hspec
  rw [show dumpsNum d ++ rest = c :: (cs ++ rest) from by rw [hd]; rfl]
  simp only [parseVal]
  rw [skipWs_cons _ _ hnws]
  simp only [if_neg h1, if_neg h2, if_neg h3, if_neg h4, if_neg h5, if_neg h6]
  rw [show c :: (cs ++ rest) = dumpsNum d ++ rest from by rw [hd]; rfl]
  exact parseJsonNum_dumpsNum d rest hrest

/-- Parsing an encoded natural number (`token_counts` entries). -/
theorem parseVal_natDigits (n : Nat) (f : Nat) (rest : List Char)
    (hrest : numBoundary rest) :
    parseVal (f + 1) (natDigits n ++ rest) = some (.num n 0, rest) := by
  obtain ⟨hv, hall, hne⟩ := natDigits_spec n
  obtain ⟨h0, t0, heq⟩ := List.exists_cons_of_ne_nil hne
  have hd0 : isDigitChar h0 = true := hall h0 (by rw [heq]; simp)
  obtain ⟨hnws, h1, h2, h3, h4, h5, h6⟩ := digit_not_special h0 hd0
  rw [heq]
  show parseVal (f + 1) (h0 :: (t0 ++ rest)) = _
  simp only [parseVal]
  rw [skipWs_cons _ _ hnws]
  simp only [if_neg h1, if_neg h2, if_neg h3, if_neg h4, if_neg h5, if_neg h6]
  rw [show h0 :: (t0 ++ rest) = natDigits n ++ rest from by rw [heq]; rfl]
  rw [parseJsonNum_no_sign _ _ hne hall, parseNumAbs_int n rest hrest]
  rfl

/-- Parsing the encoded `null`. -/
theorem parseVal_null (f : Nat) (rest : List Char) :
    parseVal (f + 1) (dumpsNull ++ rest) = some (.null, rest) := by
  show parseVal (f + 1) ('n' :: 'u' :: 'l' :: 'l' :: rest) = some (.null, rest)
  simp only [parseVal]
  rw [skipWs_cons _ _ (by decide)]
  simp

/-- An encoded string (which opens with `"`) absorbs no leading whitespace. -/
theorem skipWs_dumpsStr_append (s : String) (X : List Char) :
    skipWs (dumpsStr s ++ X) = dumpsStr s ++ X := by
  show skipWs ('"' :: ((escapeList s.data ++ ['"']) ++ X)) =
    '"' :: ((escapeList s.data ++ ['"']) ++ X)
  exact skipWs_cons _ _ (by decide)

theorem skipWs_comma (l : List Char) : skipWs (',' :: l) = ',' :: l :=
  skipWs_cons _ _ (by decide)

theorem skipWs_colon (l : List Char) : skipWs (':' :: l) = ':' :: l :=
  skipWs_cons _ _ (by decide)

theorem skipWs_rbracket (l : List Char) : skipWs (']' :: l) = ']' :: l :=
  skipWs_cons _ _ (by decide)

theorem skipWs_rbrace (l : List Char) : skipWs ('}' :: l) = '}' :: l :=
  skipWs_cons _ _ (by decide)

/-- Parsing the comma-joined encoded elements of a nonempty string array. -/
theorem parseElems_strs (x : String) (xs : List String) :
    ∀ (f : Nat) (acc : List Json) (rest : List Char),
    parseElems (f + 2 * (x :: xs).length)
        (joinSep [','] ((x :: xs).map dumpsStr) ++ (']' :: rest)) acc =
      some (.arr (acc ++ (x :: xs).map .str), rest) := by
  induction xs generalizing x with
  | nil =>
    intro f acc rest
    show parseElems (f + 2) (dumpsStr x ++ (']' :: rest)) acc =
      some (.arr (acc ++ [.str x]), rest)
    rw [show f + 2 = (f + 1) + 1 from rfl]
    generalize hB : f + 1 = F
    simp only [parseElems]
    rw [← hB]
    simp +decide only [parseVal_dumpsStr, skipWs_rbracket, if_true, if_false]
  | cons y ys ih =>
    intro f acc rest
    have hjoin : joinSep [','] ((x :: y :: ys).map dumpsStr) ++ (']' :: rest) =
        dumpsStr x ++ (',' :: (joinSep [','] ((y :: ys).map dumpsStr) ++ (']' :: rest))) := by
      show (dumpsStr x ++ [','] ++ joinSep [','] ((y :: ys).map dumpsStr)) ++ (']' :: rest) = _
      simp [List.append_assoc]
    rw [hjoin]
    rw [show f + 2 * (x :: y :: ys).length = (f + 2 * (y :: ys).length + 1) + 1 from by
      simp only [List.length_cons]
      ring]
    generalize hB : f + 2 * (y :: ys).length + 1 = F
    simp only [parseElems]
    rw [← hB]
    simp +decide only [parseVal_dumpsStr, skipWs_comma, if_true, if_false]
    rw [show f + 2 * (y :: ys).length + 1 = (f + 1) + 2 * (y :: ys).length from by omega]
    have hrec := ih y (f + 1) (acc ++ [Json.str x]) rest
    rw [hrec]
    simp [List.append_assoc]

/-- Parsing an encoded string array (`all_patient_ids`). -/
theorem parseVal_dumpsStrArr (xs : List String) (f : Nat) (rest : List Char) :
    parseVal (f + 2 * xs.length + 1) (dumpsStrArr xs ++ rest) =
      some (.arr (xs.map .str), rest) := by
  cases xs with
  | nil =>
    show parseVal (f + 1) ('[' :: ']' :: rest) = some (.arr [], rest)
    simp only [parseVal]
    rw [skipWs_cons _ _ (by decide)]
    simp +decide only [skipWs_rbracket, if_true, if_false]
  | cons x xs' =>
    have hd : dumpsStrArr (x :: xs') ++ rest =
        '[' :: (joinSep [','] ((x :: xs').map dumpsStr) ++ (']' :: rest)) := by
      simp [dumpsStrArr, List.append_assoc]
    rw [hd]
    have hswj : skipWs (joinSep [','] ((x :: xs').map dumpsStr) ++ (']' :: rest)) =
        joinSep [','] ((x :: xs').map dumpsStr) ++ (']' :: rest) := by
      cases xs' with
      | nil => exact skipWs_dumpsStr_append x (']' :: rest)
      | cons y ys =>
        have h1 : joinSep [','] ((x :: y :: ys).map dumpsStr) ++ (']' :: rest) =
            dumpsStr x ++
              ([','] ++ joinSep [','] ((y :: ys).map dumpsStr) ++ (']' :: rest)) := by
          show (dumpsStr x ++ [','] ++ joinSep [','] ((y :: ys).map dumpsStr)) ++
            (']' :: rest) = _
          simp [List.append_assoc]
        rw [h1]
        exact skipWs_dumpsStr_append x _
    simp only [parseVal]
    rw [skipWs_cons _ _ (by decide)]
    simp +decide only [if_true, if_false]
    rw [hswj]
    split
    next r heq =>
      exfalso
      cases hxs : xs' with
      | nil =>
        rw [hxs] at heq
        have heq2 : dumpsStr x ++ (']' :: rest) = ']' :: r := heq
        simp [dumpsStr] at heq2
      | cons y ys =>
        rw [hxs] at heq
        have heq2 : (dumpsStr x ++ [','] ++ joinSep [','] ((y :: ys).map dumpsStr)) ++
            (']' :: rest) = ']' :: r := heq
        simp [dumpsStr, List.append_assoc] at heq2
    next =>
      simpa using parseElems_strs x xs' f [] rest
theorem parseVal_dumpsOptStr (o : Option String) (f : Nat) (rest : List Char) :
    parseVal (f + 1) (dumpsOptStr o ++ rest) = some (summaryJson o, rest) := by
  cases o with
  | none => exact parseVal_null f rest
  | some s => exact parseVal_dumpsStr s f rest

/-! ### Member steps of an encoded object -/

theorem skipWs_quote (l : List Char) : skipWs ('"' :: l) = '"' :: l :=
  skipWs_cons _ _ (by decide)

theorem numBoundary_comma (l : List Char) : numBoundary (',' :: l) := by
  intro c hc
  rw [List.head?_cons] at hc
  injection hc with h
  subst h
  exact ⟨by decide, by decide⟩

theorem numBoundary_rbrace (l : List Char) : numBoundary ('}' :: l) := by
  intro c hc
  rw [List.head?_cons] at hc
  injection hc with h
  subst h
  exact ⟨by decide, by decide⟩

/-- One `"key":value,`-member step of `parseMembers` (compact separators,
more members follow). -/
theorem parseMembers_key_comma (F : Nat) (k : String) (tail rest4 : List Char) (v : Json)
    (acc : List (String × Json))
    (hv : parseVal F tail = some (v, ',' :: rest4)) :
    parseMembers (F + 1) (dumpsStr k ++ (':' :: tail)) acc =
      parseMembers F rest4 (acc ++ [(k, v)]) := by
  have hd : dumpsStr k ++ (':' :: tail) =
      '"' :: (escapeList k.data ++ ('"' :: (':' :: tail))) := by
    simp [dumpsStr]
  rw [hd]
  simp only [parseMembers]
  simp +decide only [skipWs_quote, psb_full, skipWs_colon, hv, skipWs_comma,
    if_true, if_false]

/-- The final `"key":value}`-member step of `parseMembers`. -/
theorem parseMembers_key_close (F : Nat) (k : String) (tail rest4 : List Char) (v : Json)
    (acc : List (String × Json))
    (hv : parseVal F tail = some (v, '}' :: rest4)) :
    parseMembers (F + 1) (dumpsStr k ++ (':' :: tail)) acc =
      some (.obj (acc ++ [(k, v)]), rest4) := by
  have hd : dumpsStr k ++ (':' :: tail) =
      '"' :: (escapeList k.data ++ ('"' :: (':' :: tail))) := by
    simp [dumpsStr]
  rw [hd]
  simp only [parseMembers]
  simp +decide only [skipWs_quote, psb_full, skipWs_colon, hv, skipWs_rbrace,
    if_true, if_false]

/-- Parsing the encoded `timing_sec` object. -/
theorem parseVal_dumpsTiming (ti : TimingInfo) (f : Nat) (rest : List Char) :
    parseVal (f + 5) (dumpsTiming ti ++ rest) = some (timingJson ti, rest) := by
  have hd : dumpsTiming ti ++ rest =
      '{' :: (dumpsStr "analyzer" ++ (':' :: (dumpsNum ti.analyzer ++
        (',' :: (dumpsStr "service" ++ (':' :: (dumpsNum ti.service ++
          ('}' :: rest)))))))) := by
    simp [dumpsTiming, List.append_assoc]
  rw [hd]
  rw [show f + 5 = (f + 4) + 1 from rfl]
  simp only [parseVal]
  rw [skipWs_cons _ _ (by decide)]
  simp +decide only [if_true, if_false]
  rw [skipWs_dumpsStr_append]
  split
  next r heq =>
    exfalso
    simp [dumpsStr] at heq
  next =>
    rw [show f + 4 = (f + 3) + 1 from rfl]
    have hv1 : parseVal (f + 3) (dumpsNum ti.analyzer ++
        (',' :: (dumpsStr "service" ++ (':' :: (dumpsNum ti.service ++ ('}' :: rest)))))) =
        some (.num ti.analyzer.mant ti.analyzer.frac, ',' ::
          (dumpsStr "service" ++ (':' :: (dumpsNum ti.service ++ ('}' :: rest))))) := by
      rw [show f + 3 = (f + 2) + 1 from rfl]
      exact parseVal_dumpsNum ti.analyzer (f + 2) _ (numBoundary_comma _)
    rw [parseMembers_key_comma _ _ _ _ _ _ hv1]
    rw [show f + 3 = (f + 2) + 1 from rfl]
    have hv2 : parseVal (f + 2) (dumpsNum ti.service ++ ('}' :: rest)) =
        some (.num ti.service.mant ti.service.frac, '}' :: rest) := by
      rw [show f + 2 = (f + 1) + 1 from rfl]
      exact parseVal_dumpsNum ti.service (f + 1) _ (numBoundary_rbrace _)
    rw [parseMembers_key_close _ _ _ _ _ _ hv2]
    rfl

/-- Parsing the encoded `token_counts or {}` object. -/
theorem parseVal_dumpsTokenCounts (tc : Option TokenCounts) (f : Nat) (rest : List Char) :
    parseVal (f + 5) (dumpsTokenCounts tc ++ rest) = some (tokenCountsJson tc, rest) := by
  cases tc with
  | none =>
    show parseVal (f + 5) ('{' :: '}' :: rest) = some (.obj [], rest)
    rw [show f + 5 = (f + 4) + 1 from rfl]
    simp only [parseVal]
    rw [skipWs_cons _ _ (by decide)]
    simp +decide only [skipWs_rbrace, if_true, if_false]
  | some t =>
    have hd : dumpsTokenCounts (some t) ++ rest =
        '{' :: (dumpsStr "history_estimate" ++ (':' :: (natDigits t.history_estimate ++
          (',' :: (dumpsStr "summary_estimate" ++ (':' :: (natDigits t.summary_estimate ++
            ('}' :: rest)))))))) := by
      simp [dumpsTokenCounts, List.append_assoc]
    rw [hd]
    rw [show f + 5 = (f + 4) + 1 from rfl]
    simp only [parseVal]
    rw [skipWs_cons _ _ (by decide)]
    simp +decide only [if_true, if_false]
    rw [skipWs_dumpsStr_append]
    split
    next r heq =>
      exfalso
      simp [dumpsStr] at heq
    next =>
      rw [show f + 4 = (f + 3) + 1 from rfl]
      have hv1 : parseVal (f + 3) (natDigits t.history_estimate ++
          (',' :: (dumpsStr "summary_estimate" ++ (':' ::
            (natDigits t.summary_estimate ++ ('}' :: rest)))))) =
          some (.num t.history_estimate 0, ',' ::
            (dumpsStr "summary_estimate" ++ (':' ::
              (natDigits t.summary_estimate ++ ('}' :: rest))))) := by
        rw [show f + 3 = (f + 2) + 1 from rfl]
        exact parseVal_natDigits t.history_estimate (f + 2) _ (numBoundary_comma _)
      rw [parseMembers_key_comma _ _ _ _ _ _ hv1]
      rw [show f + 3 = (f + 2) + 1 from rfl]
      have hv2 : parseVal (f + 2) (natDigits t.summary_estimate ++ ('}' :: rest)) =
          some (.num t.summary_estimate 0, '}' :: rest) := by
        rw [show f + 2 = (f + 1) + 1 from rfl]
        exact parseVal_natDigits t.summary_estimate (f + 1) _ (numBoundary_rbrace _)
      rw [parseMembers_key_close _ _ _ _ _ _ hv2]
      rfl

/-- Parsing the whole encoded record payload recovers the six members. -/
theorem parseVal_payloadLine (cid pid : String) (ids : List String) (ti : TimingInfo)
    (su : Option String) (tc : Option TokenCounts) (f : Nat) (rest : List Char) :
    parseVal (f + 2 * ids.length + 21) (payloadLine cid pid ids ti su tc ++ rest) =
      some (payloadJson cid pid ids ti su tc, rest) := by
  set R6 : List Char :=
    dumpsStr "token_counts" ++ (':' :: (dumpsTokenCounts tc ++ ('}' :: rest))) with hR6
  set R5 : List Char :=
    dumpsStr "chat_summary" ++ (':' :: (dumpsOptStr su ++ (',' :: R6))) with hR5
  set R4 : List Char :=
    dumpsStr "timing_sec" ++ (':' :: (dumpsTiming ti ++ (',' :: R5))) with hR4
  set R3 : List Char :=
    dumpsStr "all_patient_ids" ++ (':' :: (dumpsStrArr ids ++ (',' :: R4))) with hR3
  set R2 : List Char :=
    dumpsStr "patient_id" ++ (':' :: (dumpsStr pid ++ (',' :: R3))) with hR2
  set R1 : List Char :=
    dumpsStr "conversation_id" ++ (':' :: (dumpsStr cid ++ (',' :: R2))) with hR1
  have hd : payloadLine cid pid ids ti su tc ++ rest = '{' :: R1 := by
    rw [hR1, hR2, hR3, hR4, hR5, hR6]
    simp [payloadLine, List.append_assoc]
  rw [hd]
  rw [show f + 2 * ids.length + 21 = (f + 2 * ids.length + 20) + 1 from by omega]
  simp only [parseVal]
  rw [skipWs_cons _ _ (by decide)]
  simp +decide only [if_true, if_false]
  rw [hR1]
  rw [skipWs_dumpsStr_append]
  split
  next r heq =>
    exfalso
    simp [dumpsStr] at heq
  next =>
    rw [show f + 2 * ids.length + 20 = (f + 2 * ids.length + 19) + 1 from by omega]
    have hv1 : parseVal (f + 2 * ids.length + 19) (dumpsStr cid ++ (',' :: R2)) =
        some (Json.str cid, ',' :: R2) := by
      rw [show f + 2 * ids.length + 19 = (f + 2 * ids.length + 18) + 1 from by omega]
      exact parseVal_dumpsStr cid _ _
    rw [parseMembers_key_comma _ _ _ _ _ _ hv1]
    rw [hR2]
    rw [show f + 2 * ids.length + 19 = (f + 2 * ids.length + 18) + 1 from by omega]
    have hv2 : parseVal (f + 2 * ids.length + 18) (dumpsStr pid ++ (',' :: R3)) =
        some (Json.str pid, ',' :: R3) := by
      rw [show f + 2 * ids.length + 18 = (f + 2 * ids.length + 17) + 1 from by omega]
      exact parseVal_dumpsStr pid _ _
    rw [parseMembers_key_comma _ _ _ _ _ _ hv2]
    rw [hR3]
    rw [show f + 2 * ids.length + 18 = (f + 2 * ids.length + 17) + 1 from by omega]
    have hv3 : parseVal (f + 2 * ids.length + 17) (dumpsStrArr ids ++ (',' :: R4)) =
        some (Json.arr (ids.map Json.str), ',' :: R4) := by
      rw [show f + 2 * ids.length + 17 = (f + 16) + 2 * ids.length + 1 from by omega]
      exact parseVal_dumpsStrArr ids (f + 16) _
    rw [parseMembers_key_comma _ _ _ _ _ _ hv3]
    rw [hR4]
    rw [show f + 2 * ids.length + 17 = (f + 2 * ids.length + 16) + 1 from by omega]
    have hv4 : parseVal (f + 2 * ids.length + 16) (dumpsTiming ti ++ (',' :: R5)) =
        some (timingJson ti, ',' :: R5) := by
      rw [show f + 2 * ids.length + 16 = (f + 2 * ids.length + 11) + 5 from by omega]
      exact parseVal_dumpsTiming ti _ _
    rw [parseMembers_key_comma _ _ _ _ _ _ hv4]
    rw [hR5]
    rw [show f + 2 * ids.length + 16 = (f + 2 * ids.length + 15) + 1 from by omega]
    have hv5 : parseVal (f + 2 * ids.length + 15) (dumpsOptStr su ++ (',' :: R6)) =
        some (summaryJson su, ',' :: R6) := by
      rw [show f + 2 * ids.length + 15 = (f + 2 * ids.length + 14) + 1 from by omega]
      exact parseVal_dumpsOptStr su _ _
    rw [parseMembers_key_comma _ _ _ _ _ _ hv5]
    rw [hR6]
    rw [show f + 2 * ids.length + 15 = (f + 2 * ids.length + 14) + 1 from by omega]
    have hv6 : parseVal (f + 2 * ids.length + 14) (dumpsTokenCounts tc ++ ('}' :: rest)) =
        some (tokenCountsJson tc, '}' :: rest) := by
      rw [show f + 2 * ids.length + 14 = (f + 2 * ids.length + 9) + 5 from by omega]
      exact parseVal_dumpsTokenCounts tc _ _
    rw [parseMembers_key_close _ _ _ _ _ _ hv6]
    simp [payloadJson]

theorem dumpsStr_length_ge (s : String) : 2 ≤ (dumpsStr s).length := by
  simp [dumpsStr]

theorem joinSep_dumpsStr_length (xs : List String) :
    2 * xs.length ≤ (joinSep [','] (xs.map dumpsStr)).length := by
  induction xs with
  | nil => simp [joinSep]
  | cons x t ih =>
    cases t with
    | nil =>
      show 2 * 1 ≤ (dumpsStr x).length
      simpa using dumpsStr_length_ge x
    | cons y ys =>
      show 2 * (ys.length + 1 + 1) ≤
        (dumpsStr x ++ [','] ++ joinSep [','] ((y :: ys).map dumpsStr)).length
      have h1 := dumpsStr_length_ge x
      have h2 := ih
      simp only [List.length_append, List.length_cons, List.length_nil,
        List.length_map] at h2 ⊢
      omega

theorem dumpsStrArr_length_ge (xs : List String) :
    2 * xs.length + 2 ≤ (dumpsStrArr xs).length := by
  have h := joinSep_dumpsStr_length xs
  simp only [dumpsStrArr, List.length_cons, List.length_append]
  omega

/-- `json.loads` of the full record payload (the fuel `input length + 1`
suffices). -/
theorem jsonLoads_payloadLine (cid pid : String) (ids : List String) (ti : TimingInfo)
    (su : Option String) (tc : Option TokenCounts) :
    jsonLoads ⟨payloadLine cid pid ids ti su tc⟩ =
      some (payloadJson cid pid ids ti su tc) := by
  have hk1 := dumpsStr_length_ge "conversation_id"
  have hk2 := dumpsStr_length_ge "patient_id"
  have hk3 := dumpsStr_length_ge "all_patient_ids"
  have hk4 := dumpsStr_length_ge "timing_sec"
  have hk5 := dumpsStr_length_ge "chat_summary"
  have hk6 := dumpsStr_length_ge "token_counts"
  have harr := dumpsStrArr_length_ge ids
  have hlen : 2 * ids.length + 20 ≤ (payloadLine cid pid ids ti su tc).length := by
    simp only [payloadLine, List.length_cons, List.length_append]
    omega
  obtain ⟨F, hF⟩ : ∃ F, (payloadLine cid pid ids ti su tc).length + 1 =
      F + 2 * ids.length + 21 :=
    ⟨(payloadLine cid pid ids ti su tc).length + 1 - (2 * ids.length + 21), by omega⟩
  have hp := parseVal_payloadLine cid pid ids ti su tc F []
  rw [List.append_nil] at hp
  simp only [jsonLoads]
  rw [hF, hp]
  simp [skipWs]

/-! ### The consumer's extraction of the record payload -/

/-- `str.strip()` of one leading space before a brace-delimited payload is
exactly the payload. -/
theorem stripBoth_brace (L : List Char) (h1 : L.head? = some '{')
    (h2 : L.getLast? = some '}') :
    stripBoth isPySpace (' ' :: L) = L := by
  unfold stripBoth
  have hd1 : List.dropWhile isPySpace (' ' :: L) = List.dropWhile isPySpace L := by
    rw [List.dropWhile_cons]
    simp [isPySpace]
  have hd2 : List.dropWhile isPySpace L = L := by
    cases L with
    | nil => rfl
    | cons c t =>
      rw [List.head?_cons] at h1
      injection h1 with h1
      subst h1
      rw [List.dropWhile_cons]
      simp [isPySpace]
  rw [hd1, hd2]
  cases hL : L.reverse with
  | nil =>
    have : L = [] := by simpa using congrArg List.reverse hL
    subst this
    simp at h1
  | cons c t =>
    have hc : c = '}' := by
      have hrev : L.reverse.head? = some c := by rw [hL, List.head?_cons]
      rw [List.head?_reverse, h2] at hrev
      injection hrev with h
      exact h.symm
    subst hc
    rw [List.dropWhile_cons]
    simp only [show isPySpace '}' = false from rfl, Bool.false_eq_true, if_false]
    rw [← hL, List.reverse_reverse]

/-- The payload line ends with its closing brace. -/
theorem payloadLine_getLast (cid pid : String) (ids : List String) (ti : TimingInfo)
    (su : Option String) (tc : Option TokenCounts) :
    (payloadLine cid pid ids ti su tc).getLast? = some '}' := by
  rw [← List.head?_reverse]
  simp [payloadLine, List.reverse_append, List.reverse_cons, List.singleton_append,
    List.head?_cons, List.append_assoc]

/-- `_get_system_patient_context_json` on a transcript opened by the fresh
record recovers exactly the compact JSON payload. -/
theorem get_json_recordMsg (cid pid : String) (ids : List String) (ti : TimingInfo)
    (su : Option String) (tc : Option TokenCounts) (restMsgs : List ChatMessageContent) :
    AssistantBot._get_system_patient_context_json
        (PatientContextService.recordMsg cid pid ids ti su tc :: restMsgs) =
      some ⟨payloadLine cid pid ids ti su tc⟩ := by
  have hstart : pyStartsWith
      (⟨PATIENT_CONTEXT_PREFIX.data ++ ' ' :: payloadLine cid pid ids ti su tc⟩ : String)
      PATIENT_CONTEXT_PREFIX = true :=
    matchesAt_append PATIENT_CONTEXT_PREFIX.data (' ' :: payloadLine cid pid ids ti su tc)
  have hne : (⟨PATIENT_CONTEXT_PREFIX.data ++
      ' ' :: payloadLine cid pid ids ti su tc⟩ : String) ≠ "" := by
    intro h
    have h2 := congrArg String.data h
    simp at h2
  have hdrop : pyDrop
      (⟨PATIENT_CONTEXT_PREFIX.data ++ ' ' :: payloadLine cid pid ids ti su tc⟩ : String)
      PATIENT_CONTEXT_PREFIX.length = ⟨' ' :: payloadLine cid pid ids ti su tc⟩ := by
    show (⟨(PATIENT_CONTEXT_PREFIX.data ++
      ' ' :: payloadLine cid pid ids ti su tc).drop PATIENT_CONTEXT_PREFIX.data.length⟩ :
        String) = _
    rw [List.drop_left]
  have hstrip : pyStrip (⟨' ' :: payloadLine cid pid ids ti su tc⟩ : String) =
      ⟨payloadLine cid pid ids ti su tc⟩ := by
    show (⟨stripBoth isPySpace (' ' :: payloadLine cid pid ids ti su tc)⟩ : String) = _
    rw [stripBoth_brace (payloadLine cid pid ids ti su tc) rfl
      (payloadLine_getLast cid pid ids ti su tc)]
  have hnocolon : pyStartsWith (⟨payloadLine cid pid ids ti su tc⟩ : String) ":" = false :=
    rfl
  have hnemp : (⟨payloadLine cid pid ids ti su tc⟩ : String) ≠ "" := by
    intro h
    have h2 := congrArg String.data h
    simp [payloadLine] at h2
  simp only [AssistantBot._get_system_patient_context_json]
  rw [if_pos (show (PatientContextService.recordMsg cid pid ids ti su tc).role =
    AuthorRole.system from rfl)]
  have hmsg : AssistantBot.msgText (PatientContextService.recordMsg cid pid ids ti su tc) =
      ⟨PATIENT_CONTEXT_PREFIX.data ++ ' ' :: payloadLine cid pid ids ti su tc⟩ := rfl
  rw [hmsg]
  rw [if_pos ⟨hne, hstart⟩]
  rw [hdrop, hstrip]
  rw [hnocolon]
  simp [hnemp]

/-- C8: for every conversation id, active patient id, and ordered list of
known patient ids (with any timing, summary and token-count digest),
encoding the Context Record — the marker prefix plus the compact JSON
payload, exactly as `_ensure_system_message` builds it — and then decoding
it through the consumer's marker-stripping extraction
(`_get_system_patient_context_json`) and `json.loads` yields an object
whose `conversation_id`, `patient_id` and `all_patient_ids` members are
identical to the encoder's inputs, the id list order-preserving. -/
theorem c8_record_roundtrip (cid pid : String) (ids : List String) (ti : TimingInfo)
    (su : Option String) (tc : Option TokenCounts) (restMsgs : List ChatMessageContent) :
    ∃ payload kvs,
      AssistantBot._get_system_patient_context_json
          (PatientContextService.recordMsg cid pid ids ti su tc :: restMsgs) =
        some payload ∧
      jsonLoads payload = some (.obj kvs) ∧
      objGet kvs "conversation_id" = some (.str cid) ∧
      objGet kvs "patient_id" = some (.str pid) ∧
      objGet kvs "all_patient_ids" = some (.arr (ids.map .str)) := by
  refine ⟨⟨payloadLine cid pid ids ti su tc⟩,
    [("conversation_id", .str cid), ("patient_id", .str pid),
     ("all_patient_ids", .arr (ids.map .str)), ("timing_sec", timingJson ti),
     ("chat_summary", summaryJson su), ("token_counts", tokenCountsJson tc)],
    get_json_recordMsg cid pid ids ti su tc restMsgs,
    jsonLoads_payloadLine cid pid ids ti su tc, ?_, ?_, ?_⟩
  · simp [objGet]
  · simp [objGet]
  · simp [objGet]

end SkincareOrchestrator
